import Mathlib

/-!
Shallow embedding of the persistence layer of `src/lib/indexedDB.js`
(class `IndexedDBHelper`) together with the bootstrap schema declared in
the application entry module, and the parts of the browser / SQL
environment (IndexedDB transactions and key generators, `JSON.parse`,
`JSON.stringify`, sql.js / SQLite storage) that the layer's observable
behaviour depends on.

JavaScript values are modelled by `JsVal`; numbers are modelled as
rationals, which keeps the integer / non-integer distinction that
`Number.isInteger` tests without committing to binary floating point.
JavaScript objects are modelled as ordered association lists, so
"field-for-field equality" of two records is plain equality of lists.
-/

/-- A JavaScript value as handled by the persistence layer. -/
inductive JsVal where
  | null
  | bool (b : Bool)
  | num (q : ℚ)
  | str (s : String)
  | arr (elems : List JsVal)
  | obj (fields : List (String × JsVal))

/-- A record: a JavaScript object, as an ordered association list. -/
abbrev JsRec := List (String × JsVal)

/-- Field access `r[k]`: the value at the first binding of `k`;
`none` models the JavaScript `undefined` of a missing property. -/
def getField (r : JsRec) (k : String) : Option JsVal :=
  match r with
  | [] => none
  | (k', v) :: rest => if k' = k then some v else getField rest k

/-- JavaScript `x || y` for an optional string `x`: both `undefined`
and the empty string are falsy. -/
def jsOrStr (x : Option String) (y : String) : String :=
  match x with
  | some s => if s = "" then y else s
  | none => y

/-! ### Schema registry (`addStore`) and the bootstrap configuration -/

/-- One entry of the `indexes` array passed to `addStore`.  The
bootstrap code writes some entries with a lowercase `keypath` property;
property names are case sensitive, so such a value lands in
`keypathLower` and is never read by `init`. -/
structure RawIndex where
  name : String
  keyPath : Option String := none
  keypathLower : Option String := none
  unique : Option Bool := none

/-- A secondary index as physically created at upgrade time. -/
structure CreatedIndex where
  name : String
  fieldPath : String
  unique : Bool
deriving DecidableEq

/-- `objectStore.createIndex(index.name, index.keyPath || index.name,
{ unique: index.unique || false })` — src/lib/indexedDB.js lines 69-75. -/
def createdIndex (i : RawIndex) : CreatedIndex :=
  { name := i.name, fieldPath := jsOrStr i.keyPath i.name,
    unique := i.unique.getD false }

/-- `addStore` configuration after defaulting (src/lib/indexedDB.js
lines 29-36): `keyPath: options.keyPath || 'id'`,
`autoIncrement: options.autoIncrement || false`,
`indexes: options.indexes || []`. -/
structure StoreConfig where
  keyPath : String := "id"
  autoIncrement : Bool := false
  indexes : List RawIndex := []

/-- The bootstrap schema: `db.addStore('records', { keyPath: 'uid',
autoIncrement: true, indexes: [...] })`.  The `index` and `title`
entries spell their field-path key `keypath` (lowercase), so their
`keyPath` option is absent as far as `init` is concerned. -/
def recordsStoreConfig : StoreConfig :=
  { keyPath := "uid", autoIncrement := true,
    indexes :=
      [ { name := "date", keyPath := some "date" },
        { name := "index", keypathLower := some "index" },
        { name := "title", keypathLower := some "title" },
        { name := "record" } ] }

/-! ### The physical database and the upgrade protocol (`init`) -/

/-- A physically existing object store of the open database:
its key path, auto-increment flag, created indexes, the state of its
key generator, and its contents as (key, record) pairs. -/
structure PhysStore where
  keyPath : String
  autoIncrement : Bool
  indexes : List CreatedIndex
  nextKey : Nat
  contents : List (JsVal × JsRec)

/-- `db.createObjectStore(storeName, { keyPath, autoIncrement })`
followed by `createIndex` for every entry (src/lib/indexedDB.js lines
62-75): a brand-new empty store built from the descriptor alone. -/
def freshStore (cfg : StoreConfig) : PhysStore :=
  { keyPath := cfg.keyPath, autoIncrement := cfg.autoIncrement,
    indexes := cfg.indexes.map createdIndex, nextKey := 1, contents := [] }

/-- Name lookup among the database's stores (first match). -/
def lookupStore (db : List (String × PhysStore)) (name : String) :
    Option PhysStore :=
  match db with
  | [] => none
  | (n, s) :: rest => if n = name then some s else lookupStore rest name

/-- One iteration of the `onupgradeneeded` loop (src/lib/indexedDB.js
lines 56-76): if a store of that name already exists it is deleted,
then the store is created afresh from the registry descriptor. -/
def upgradeStep (db : List (String × PhysStore))
    (entry : String × StoreConfig) : List (String × PhysStore) :=
  (db.filter (fun p => p.1 != entry.1)) ++ [(entry.1, freshStore entry.2)]

/-- The whole `onupgradeneeded` handler: the registry's descriptors are
processed in declaration order, each by `upgradeStep`. -/
def applyUpgrade (registry : List (String × StoreConfig))
    (db : List (String × PhysStore)) : List (String × PhysStore) :=
  registry.foldl upgradeStep db

/-! ### Cursor traversal (`cursor`) -/

/-- Whether a callback result vetoes accumulation: the source tests
`result !== false`, so exactly the boolean `false` vetoes. -/
def vetoed (v : JsVal) : Bool :=
  match v with
  | JsVal.bool false => true
  | _ => false

/-- `IndexedDBHelper.cursor` (src/lib/indexedDB.js lines 304-333).
The engine hands over the matching records in traversal order (the
`records` argument); for each one the callback runs, its result is
tested against `false` to decide whether `cursor.value` is pushed onto
`results`, and `cursor.continue()` is always called.  The promise
resolves with `results` when the cursor is exhausted. -/
def cursorCollect (records : List JsRec) (callback : JsRec → JsVal) :
    List JsRec :=
  match records with
  | [] => []
  | r :: rest =>
    let tail := cursorCollect rest callback
    match callback r with
    | JsVal.bool false => tail
    | _ => r :: tail

/-! ### Write requests: keys, `add`, `put` -/

/-- Engine-level request errors relevant here. -/
inductive DBErr where
  | dataErr
  | constraintErr
deriving DecidableEq

/-- The `message` property of the corresponding engine error object. -/
def DBErr.message : DBErr → String
  | DBErr.dataErr => "DataError"
  | DBErr.constraintErr => "ConstraintError"

/-- Valid IndexedDB keys among the modelled values: numbers and strings
(dates, binary data and key arrays play no role in this program). -/
def validKey (v : JsVal) : Bool :=
  match v with
  | JsVal.num _ => true
  | JsVal.str _ => true
  | _ => false

/-- Equality of (valid) keys. -/
def keyEq (a b : JsVal) : Bool :=
  match a, b with
  | JsVal.num x, JsVal.num y => x == y
  | JsVal.str x, JsVal.str y => x == y
  | _, _ => false

/-- Key-generator update after writing an explicit key (IndexedDB
semantics): an integral numeric key at or above the current generator
value pushes the generator past it. -/
def bumpGen (next : Nat) (k : JsVal) : Nat :=
  match k with
  | JsVal.num q =>
    if q.den = 1 ∧ 0 ≤ q.num ∧ next ≤ q.num.toNat then q.num.toNat + 1 else next
  | _ => next

/-- Key determination for a write against a store with a key path
(IndexedDB semantics).  The value at the key path is used when present
and a valid key; a present but invalid value (e.g. `null`) is a
`DataError` even on an auto-increment store; an absent value on an
auto-increment store draws a fresh numeric key from the generator and
injects it into the stored record; an absent value otherwise is a
`DataError`.  Returns the key, the record as stored, and the new
generator value. -/
def evalWriteKey (st : PhysStore) (item : JsRec) :
    Except DBErr (JsVal × JsRec × Nat) :=
  match getField item st.keyPath with
  | some v =>
    if validKey v then Except.ok (v, item, bumpGen st.nextKey v)
    else Except.error DBErr.dataErr
  | none =>
    if st.autoIncrement then
      Except.ok (JsVal.num (mkRat st.nextKey 1),
        item ++ [(st.keyPath, JsVal.num (mkRat st.nextKey 1))], st.nextKey + 1)
    else Except.error DBErr.dataErr

/-- One `objectStore.add` sub-request: key determination, then a
`ConstraintError` when the key is already present, otherwise the
record is stored under its key. -/
def addOne (st : PhysStore) (item : JsRec) : Except DBErr (PhysStore × JsVal) :=
  match evalWriteKey st item with
  | Except.error e => Except.error e
  | Except.ok (k, stored, next) =>
    if st.contents.any (fun p => keyEq p.1 k) then Except.error DBErr.constraintErr
    else Except.ok
      ({ st with nextKey := next, contents := st.contents ++ [(k, stored)] }, k)

/-- The sub-requests of one multi-record `add` call, issued in input
order inside one transaction; the first failing sub-request aborts the
whole transaction. -/
def addSubRequests (st : PhysStore) (items : List JsRec) :
    Except DBErr (PhysStore × List JsVal) :=
  match items with
  | [] => Except.ok (st, [])
  | item :: rest =>
    match addOne st item with
    | Except.error e => Except.error e
    | Except.ok (st', k) =>
      match addSubRequests st' rest with
      | Except.error e => Except.error e
      | Except.ok (stf, ks) => Except.ok (stf, k :: ks)

/-- The synchronous check `objectStore.add` performs at issue time
(IndexedDB): it THROWS a `DataError` — rather than failing the
request asynchronously — when the record's key-path value is present
but not a valid key, or absent on a store without a key generator.
The check depends only on the record and the store's key path and
auto-increment flag. -/
def addThrowsSync (st : PhysStore) (item : JsRec) : Bool :=
  match getField item st.keyPath with
  | some v => !validKey v
  | none => !st.autoIncrement

/-- The synchronous `forEach` of the executor (lines 107-110): one
`objectStore.add` is issued per item, in input order; the first item
on which `objectStore.add` throws stops the loop.  Returns the prefix
of items whose requests were actually issued and the thrown error, if
any. -/
def issueRequests (st : PhysStore) (items : List JsRec) :
    List JsRec × Option DBErr :=
  match items with
  | [] => ([], none)
  | item :: rest =>
    if addThrowsSync st item then ([], some DBErr.dataErr)
    else
      let tail := issueRequests st rest
      (item :: tail.1, tail.2)

/-- `IndexedDBHelper.add` (src/lib/indexedDB.js lines 98-120) on an
array argument, combined with the engine's semantics.  The promise
executor issues the per-item sub-requests synchronously in input
order.  A synchronous `DataError` thrown by `objectStore.add`
(invalid or absent key, `addThrowsSync`) escapes the `forEach` inside
the executor: the promise rejects with that error at once — before
`transaction.oncomplete`/`onerror` are even assigned — the remaining
items are never issued, and the already-issued requests stay with the
transaction, which commits them if none of them fails asynchronously
(and rolls everything back if one does).  When no synchronous throw
occurs, the promise settles only with the transaction: `results`
collects each sub-request's key in input order and is resolved at
`transaction.oncomplete`, and any asynchronously failing sub-request
(e.g. a duplicate key, `ConstraintError`) aborts the transaction,
rolls the store back and rejects the promise at `transaction.onerror`
with the engine's error.  Returns the final committed store state and
the promise's outcome. -/
def addCall (st : PhysStore) (items : List JsRec) :
    PhysStore × Except DBErr (List JsVal) :=
  let issue := issueRequests st items
  match issue.2 with
  | some eSync =>
    (match addSubRequests st issue.1 with
     | Except.ok (stf, _) => (stf, Except.error eSync)
     | Except.error _ => (st, Except.error eSync))
  | none =>
    (match addSubRequests st issue.1 with
     | Except.ok (stf, ks) => (stf, Except.ok ks)
     | Except.error e => (st, Except.error e))

/-- One `objectStore.put` sub-request: key determination, then
insert-or-replace under that key (no constraint check). -/
def putOne (st : PhysStore) (item : JsRec) : Except DBErr (PhysStore × JsVal) :=
  match evalWriteKey st item with
  | Except.error e => Except.error e
  | Except.ok (k, stored, next) =>
    let kept := st.contents.filter (fun p => !keyEq p.1 k)
    Except.ok ({ st with nextKey := next, contents := kept ++ [(k, stored)] }, k)

/-! ### Snapshot import (`importData`) -/

/-- The canonical in-memory snapshot (`exportData`'s shape): metadata
plus `stores`, an object mapping store names to record arrays. -/
structure Snapshot where
  dbName : String
  version : Nat
  exportDate : String
  stores : List (String × List JsRec)

/-- The result object built by `importData` (lines 536-540, 601-603). -/
structure ImportResult where
  success : Bool
  imported : List (String × Nat)
  errors : List String
deriving DecidableEq

/-- `true` exactly on `JsVal.null`. -/
def isNullVal (v : JsVal) : Bool :=
  match v with
  | JsVal.null => true
  | _ => false

/-- Lines 570-577 of `importData`: when the registry descriptor of the
target store has `autoIncrement` and a truthy `keyPath`, a record whose
key-path property is `null` (or absent, i.e. `undefined` — in which
case deleting changes nothing) has that property deleted in place
before insertion. -/
def stripKey (cfg : Option StoreConfig) (item : JsRec) : JsRec :=
  match cfg with
  | some c =>
    if c.autoIncrement ∧ c.keyPath ≠ "" then
      item.filter (fun p => !(p.1 == c.keyPath && isNullVal p.2))
    else item
  | none => item

/-- Registry lookup, `this.stores.get(storeName)`. -/
def lookupCfg (registry : List (String × StoreConfig)) (name : String) :
    Option StoreConfig :=
  match registry with
  | [] => none
  | (n, c) :: rest => if n = name then some c else lookupCfg rest name

/-- Replace the named store's state in the database. -/
def updateStore (db : List (String × PhysStore)) (name : String)
    (ps : PhysStore) : List (String × PhysStore) :=
  db.map (fun p => if p.1 = name then (p.1, ps) else p)

/-- Accumulator state of the `importData` loop: the database plus the
`imported` and `errors` fields of the result object under construction. -/
structure ImportState where
  db : List (String × PhysStore)
  imported : List (String × Nat)
  errors : List String

/-- The per-record loop of `importData` (lines 568-588) over one
store's records.  Returns the final store state, the success count,
the error messages pushed, the record list as mutated in place by the
key-stripping step, and — when `skipErrors` is false and a `put`
failed — the message of the thrown error (records after the failing
one are then left unprocessed and unmutated). -/
def importRecords (cfg : Option StoreConfig) (storeName : String)
    (skipErrors : Bool) (ps : PhysStore) (items : List JsRec) :
    PhysStore × Nat × List String × List JsRec × Option String :=
  match items with
  | [] => (ps, 0, [], [], none)
  | item :: rest =>
    let item' := stripKey cfg item
    match putOne ps item' with
    | Except.ok (ps', _) =>
      let (psf, n, errs, rest', thrown) :=
        importRecords cfg storeName skipErrors ps' rest
      (psf, n + 1, errs, item' :: rest', thrown)
    | Except.error e =>
      let emsg := "导入 " ++ storeName ++ " 中的数据失败: " ++ e.message
      if skipErrors then
        let (psf, n, errs, rest', thrown) :=
          importRecords cfg storeName skipErrors ps rest
        (psf, n, emsg :: errs, item' :: rest', thrown)
      else (ps, 0, [emsg], item' :: rest, some e.message)

/-- Processing of one `[storeName, data]` entry of the snapshot's
`stores` (lines 549-599): a store name absent from the live database
is recorded as a warning and skipped; otherwise the store is optionally
cleared, the records are replayed one by one, and a failure thrown out
of that loop is caught at store level (lines 592-598), recorded, and —
since it is only thrown when `skipErrors` is false — rethrown.
Returns the new state, the store's record list as mutated in place,
and the rethrown error's message if any. -/
def importStoreEntry (registry : List (String × StoreConfig))
    (clearBeforeImport skipErrors : Bool) (s : ImportState)
    (entry : String × List JsRec) :
    ImportState × List JsRec × Option String :=
  match lookupStore s.db entry.1 with
  | none =>
    ({ s with errors := s.errors ++ ["仓库 " ++ entry.1 ++ " 不存在，跳过导入"] },
      entry.2, none)
  | some ps =>
    let ps0 := if clearBeforeImport then { ps with contents := [] } else ps
    let cfg := lookupCfg registry entry.1
    let (psf, n, errs, data', thrown) :=
      importRecords cfg entry.1 skipErrors ps0 entry.2
    match thrown with
    | none =>
      ({ db := updateStore s.db entry.1 psf,
         imported := s.imported ++ [(entry.1, n)],
         errors := s.errors ++ errs }, data', none)
    | some m =>
      ({ db := updateStore s.db entry.1 psf,
         imported := s.imported,
         errors := s.errors ++ errs ++ ["处理仓库 " ++ entry.1 ++ " 时出错: " ++ m] },
        data', some m)

/-- The store loop of `importData` plus the final `success` update
(lines 549-605): on normal completion the result object is returned
with `success` false exactly when errors were recorded; a rethrown
per-record error aborts the loop and propagates out of the call
(the result object built so far is discarded). -/
def importLoop (registry : List (String × StoreConfig))
    (clearBeforeImport skipErrors : Bool) (s : ImportState)
    (entries : List (String × List JsRec)) :
    Except String ImportResult × List (String × PhysStore) ×
      List (String × List JsRec) :=
  match entries with
  | [] =>
    let res : ImportResult :=
      { success := s.errors.isEmpty, imported := s.imported, errors := s.errors }
    (Except.ok res, s.db, [])
  | entry :: rest =>
    match importStoreEntry registry clearBeforeImport skipErrors s entry with
    | (s', data', some m) => (Except.error m, s'.db, (entry.1, data') :: rest)
    | (s', data', none) =>
      let (res, dbf, rest') :=
        importLoop registry clearBeforeImport skipErrors s' rest
      (res, dbf, (entry.1, data') :: rest')

/-- `IndexedDBHelper.importData` (src/lib/indexedDB.js lines 533-612)
on a well-formed snapshot (one whose `stores` property exists).
Returns the call's outcome — `Except.ok` the result object, or
`Except.error` the message of the propagated error when `skipErrors`
is false and an insertion failed — together with the final database
state and the snapshot's `stores` as mutated in place by the
key-stripping step. -/
def importData (registry : List (String × StoreConfig))
    (db : List (String × PhysStore)) (snap : Snapshot)
    (clearBeforeImport skipErrors : Bool) :
    Except String ImportResult × List (String × PhysStore) ×
      List (String × List JsRec) :=
  importLoop registry clearBeforeImport skipErrors
    { db := db, imported := [], errors := [] } snap.stores

/-- Whether inserting this record into a store with the given key path
and auto-increment flag fails (`putOne` fails exactly on these records,
and its failure never depends on the store's contents or generator). -/
def recFails (keyPath : String) (autoInc : Bool) (item : JsRec) : Bool :=
  match getField item keyPath with
  | some v => !validKey v
  | none => !autoInc

/-- Whether the import loop will meet a per-record insertion failure:
snapshot entries in iteration order, stores absent from the database
skipped, each record tested after key stripping. -/
def anyFailure (registry : List (String × StoreConfig))
    (db : List (String × PhysStore))
    (entries : List (String × List JsRec)) : Bool :=
  entries.any (fun e =>
    match lookupStore db e.1 with
    | none => false
    | some ps =>
      e.2.any (fun item =>
        recFails ps.keyPath ps.autoIncrement
          (stripKey (lookupCfg registry e.1) item)))

/-! ### `JSON.parse` and `JSON.stringify` (environment model)

The import heuristic and the export coercions call the ECMA-262 JSON
built-ins.  They are modelled here over `List Char`, with fuel for the
nesting recursion.  The model follows the JSON grammar (whitespace,
the three literals, numbers without leading zeros, strings with the
standard escapes, arrays, objects); `Char.ofNat` stands in for UTF-16
code-unit handling of `\u` escapes. -/

/-- JSON whitespace skipping. -/
def skipWs (cs : List Char) : List Char :=
  match cs with
  | c :: rest =>
    if c = ' ' ∨ c = '\t' ∨ c = '\n' ∨ c = '\r' then skipWs rest else c :: rest
  | [] => []

/-- The numeric value of a decimal digit. -/
def digitVal (c : Char) : Option Nat :=
  if '0' ≤ c ∧ c ≤ '9' then some (c.toNat - '0'.toNat) else none

/-- The longest digit run at the front of the input. -/
def takeDigits (cs : List Char) : List Nat × List Char :=
  match cs with
  | c :: rest =>
    match digitVal c with
    | some d =>
      let (ds, r) := takeDigits rest
      (d :: ds, r)
    | none => ([], c :: rest)
  | [] => ([], [])

/-- A digit run read as a natural number. -/
def digitsToNat (ds : List Nat) : Nat :=
  ds.foldl (fun a d => a * 10 + d) 0

/-- The fraction part `.digits` when present. -/
def parseFrac (cs : List Char) : List Nat × List Char :=
  match cs with
  | '.' :: rest =>
    match takeDigits rest with
    | ([], _) => ([], '.' :: rest)
    | (ds, r) => (ds, r)
  | _ => ([], cs)

/-- The exponent part `e[+-]digits` when present (`0` otherwise). -/
def parseExpPart (cs : List Char) : Int × List Char :=
  match cs with
  | c :: rest =>
    if c = 'e' ∨ c = 'E' then
      let sgnRest : Int × List Char :=
        match rest with
        | '+' :: r => (1, r)
        | '-' :: r => (-1, r)
        | r => (1, r)
      match takeDigits sgnRest.2 with
      | ([], _) => (0, cs)
      | (ds, r2) => (sgnRest.1 * (digitsToNat ds : Int), r2)
    else (0, cs)
  | [] => (0, [])

/-- The rational value of sign, integer digits, fraction digits and
decimal exponent. -/
def mkNumber (neg : Bool) (ip fp : List Nat) (ex : Int) : ℚ :=
  let mantNat : Nat := digitsToNat ip * 10 ^ fp.length + digitsToNat fp
  let mant : Int := if neg then -(mantNat : Int) else (mantNat : Int)
  let e : Int := ex - (fp.length : Int)
  if 0 ≤ e then mkRat (mant * (10 : Int) ^ e.toNat) 1
  else mkRat mant ((10 : Nat) ^ (-e).toNat)

/-- A numeric literal (shared core): sign, digits, fraction, exponent. -/
def parseNumCore (cs : List Char) : Option (ℚ × List Char) :=
  let negRest : Bool × List Char :=
    match cs with
    | '-' :: rest => (true, rest)
    | _ => (false, cs)
  match takeDigits negRest.2 with
  | ([], _) => none
  | (ip, cs2) =>
    let (fp, cs3) := parseFrac cs2
    let (ex, cs4) := parseExpPart cs3
    some (mkNumber negRest.1 ip fp ex, cs4)

/-- A JSON number: like the core, but leading zeros are rejected. -/
def parseJsonNumber (cs : List Char) : Option (ℚ × List Char) :=
  let body : List Char :=
    match cs with
    | '-' :: rest => rest
    | _ => cs
  match body with
  | '0' :: d :: _ =>
    if (digitVal d).isSome then none else parseNumCore cs
  | _ => parseNumCore cs

/-- The value of a hexadecimal digit. -/
def hexVal (c : Char) : Option Nat :=
  if '0' ≤ c ∧ c ≤ '9' then some (c.toNat - '0'.toNat)
  else if 'a' ≤ c ∧ c ≤ 'f' then some (c.toNat - 'a'.toNat + 10)
  else if 'A' ≤ c ∧ c ≤ 'F' then some (c.toNat - 'A'.toNat + 10)
  else none

/-- The character denoted by a single-character JSON escape. -/
def escChar (e : Char) : Option Char :=
  if e = '"' then some '"'
  else if e = '\\' then some '\\'
  else if e = '/' then some '/'
  else if e = 'b' then some (Char.ofNat 8)
  else if e = 'f' then some (Char.ofNat 12)
  else if e = 'n' then some '\n'
  else if e = 'r' then some '\r'
  else if e = 't' then some '\t'
  else none

/-- The body of a JSON string after the opening quote: characters up
to the closing quote, escapes decoded, unescaped control characters
rejected. -/
def parseStrBody (fuel : Nat) (cs : List Char) : Option (List Char × List Char) :=
  match fuel with
  | 0 => none
  | fuel + 1 =>
    match cs with
    | [] => none
    | '"' :: rest => some ([], rest)
    | '\\' :: rest =>
      match rest with
      | 'u' :: a :: b :: c :: d :: r =>
        match hexVal a, hexVal b, hexVal c, hexVal d with
        | some x1, some x2, some x3, some x4 =>
          let n := ((x1 * 16 + x2) * 16 + x3) * 16 + x4
          (parseStrBody fuel r).map (fun p => (Char.ofNat n :: p.1, p.2))
        | _, _, _, _ => none
      | e :: r =>
        match escChar e with
        | some ch => (parseStrBody fuel r).map (fun p => (ch :: p.1, p.2))
        | none => none
      | [] => none
    | c :: rest =>
      if c.toNat < 32 then none
      else (parseStrBody fuel rest).map (fun p => (c :: p.1, p.2))

mutual

/-- One JSON value at the front of the input. -/
def parseVal : Nat → List Char → Option (JsVal × List Char)
  | 0, _ => none
  | fuel + 1, cs =>
    match skipWs cs with
    | 'n' :: 'u' :: 'l' :: 'l' :: rest => some (JsVal.null, rest)
    | 't' :: 'r' :: 'u' :: 'e' :: rest => some (JsVal.bool true, rest)
    | 'f' :: 'a' :: 'l' :: 's' :: 'e' :: rest => some (JsVal.bool false, rest)
    | '"' :: rest =>
      (parseStrBody (rest.length + 1) rest).map
        (fun p => (JsVal.str (String.mk p.1), p.2))
    | '[' :: rest =>
      (match skipWs rest with
       | ']' :: r2 => some (JsVal.arr [], r2)
       | r2 => (parseElems fuel r2).map (fun p => (JsVal.arr p.1, p.2)))
    | '{' :: rest =>
      (match skipWs rest with
       | '}' :: r2 => some (JsVal.obj [], r2)
       | r2 => (parseMembers fuel r2).map (fun p => (JsVal.obj p.1, p.2)))
    | other => (parseJsonNumber other).map (fun p => (JsVal.num p.1, p.2))

/-- The elements of a non-empty JSON array, up to `]`. -/
def parseElems : Nat → List Char → Option (List JsVal × List Char)
  | 0, _ => none
  | fuel + 1, cs =>
    match parseVal fuel cs with
    | none => none
    | some (v, rest) =>
      match skipWs rest with
      | ',' :: r2 => (parseElems fuel r2).map (fun p => (v :: p.1, p.2))
      | ']' :: r2 => some ([v], r2)
      | _ => none

/-- The members of a non-empty JSON object, up to `}`. -/
def parseMembers : Nat → List Char → Option (List (String × JsVal) × List Char)
  | 0, _ => none
  | fuel + 1, cs =>
    match skipWs cs with
    | '"' :: rest =>
      match parseStrBody (rest.length + 1) rest with
      | none => none
      | some (key, r1) =>
        match skipWs r1 with
        | ':' :: r2 =>
          (match parseVal fuel r2 with
           | none => none
           | some (v, r3) =>
             match skipWs r3 with
             | ',' :: r4 =>
               (parseMembers fuel r4).map
                 (fun p => ((String.mk key, v) :: p.1, p.2))
             | '}' :: r4 => some ([(String.mk key, v)], r4)
             | _ => none)
        | _ => none
    | _ => none

end

/-- `JSON.parse(s)`: the whole string must be one JSON text (with
surrounding whitespace); `none` models the thrown `SyntaxError`. -/
def jsonParse (s : String) : Option JsVal :=
  match parseVal (4 * s.length + 4) s.toList with
  | some (v, rest) => if skipWs rest = [] then some v else none
  | none => none

/-- A rational as a JavaScript decimal numeral: exact for integers and
for denominators that divide a power of ten (the only rationals the
parser produces); other denominators fall back to a fraction spelling,
which no theorem below exercises. -/
def numToText (q : ℚ) : String :=
  if q.den = 1 then toString q.num
  else
    let digits := 10 ^ 18 / q.den * q.num.natAbs % 10 ^ 18
    let sign := if q.num < 0 then "-" else ""
    if (10 : Nat) ^ 18 % q.den = 0 then
      sign ++ toString (q.num.natAbs / q.den) ++ "." ++
        (toString (digits + 10 ^ 18)).drop 1 |>.dropRightWhile (fun c => c = '0')
    else toString q.num ++ "/" ++ toString q.den

/-- JSON string quoting: the double quote, the backslash and the named
control characters are escaped. -/
def quoteStr (s : String) : String :=
  "\"" ++ String.join (s.toList.map (fun c =>
    if c = '"' then "\\\""
    else if c = '\\' then "\\\\"
    else if c = '\n' then "\\n"
    else if c = '\r' then "\\r"
    else if c = '\t' then "\\t"
    else String.mk [c])) ++ "\""

mutual

/-- `JSON.stringify` on a value (undefined members play no role here). -/
def stringifyVal : JsVal → String
  | JsVal.null => "null"
  | JsVal.bool b => if b then "true" else "false"
  | JsVal.num q => numToText q
  | JsVal.str s => quoteStr s
  | JsVal.arr xs => "[" ++ stringifyElems xs ++ "]"
  | JsVal.obj fs => "\x7b" ++ stringifyMembers fs ++ "\x7d"

/-- Array elements, comma separated. -/
def stringifyElems : List JsVal → String
  | [] => ""
  | [x] => stringifyVal x
  | x :: xs => stringifyVal x ++ "," ++ stringifyElems xs

/-- Object members, comma separated. -/
def stringifyMembers : List (String × JsVal) → String
  | [] => ""
  | [(k, v)] => quoteStr k ++ ":" ++ stringifyVal v
  | (k, v) :: fs => quoteStr k ++ ":" ++ stringifyVal v ++ "," ++ stringifyMembers fs

end

/-! ### The relational file: sql.js / SQLite storage model -/

/-- An SQLite storage value.  `sql.js` binds JavaScript numbers as
integers or floats, strings as text and `null` as NULL, and `exec`
returns them to JavaScript the same way. -/
inductive SqlVal where
  | int (n : Int)
  | real (q : ℚ)
  | text (s : String)
  | null
deriving DecidableEq

/-- The column types the exporter emits (lines 452-460). -/
inductive ColType where
  | integer
  | real
  | text
deriving DecidableEq

/-- Column-type inference from the sampled first record (lines
452-460): `INTEGER` for integral numbers (the `Number.isInteger`
test), `REAL` for other numbers, `INTEGER` for booleans, `TEXT`
otherwise. -/
def inferColType (v : JsVal) : ColType :=
  match v with
  | JsVal.num q => if q.den = 1 then ColType.integer else ColType.real
  | JsVal.bool _ => ColType.integer
  | _ => ColType.text

/-- The value transformation of the insert loop (lines 481-488)
followed by `sql.js` parameter binding: booleans are coerced to 0/1,
non-null objects and arrays to their `JSON.stringify` text; numbers
bind as INTEGER when integral and REAL otherwise, strings as TEXT and
null as NULL. -/
def bindVal (v : JsVal) : SqlVal :=
  match v with
  | JsVal.bool b => SqlVal.int (if b then 1 else 0)
  | JsVal.obj fs => SqlVal.text (stringifyVal (JsVal.obj fs))
  | JsVal.arr xs => SqlVal.text (stringifyVal (JsVal.arr xs))
  | JsVal.num q => if q.den = 1 then SqlVal.int q.num else SqlVal.real q
  | JsVal.str s => SqlVal.text s
  | JsVal.null => SqlVal.null

/-- Text-to-number conversion under numeric affinity (SQLite): the
whole text must be a numeric literal (an optional `+` is allowed);
the result is an integer when the value is integral, a real
otherwise. -/
def textToNum (s : String) : Option SqlVal :=
  let cs : List Char :=
    match s.toList with
    | '+' :: rest => rest
    | cs => cs
  match parseNumCore cs with
  | some (q, []) => some (if q.den = 1 then SqlVal.int q.num else SqlVal.real q)
  | _ => none

/-- SQLite column affinity applied on insert (modelled from the SQLite
documentation on type affinity).  A column with INTEGER affinity
behaves numerically: numeric text converts to a number and an exactly
integral real is stored as an integer; REAL affinity additionally
forces integers to floating point (observationally identical through
`sql.js`, which hands both back as one JavaScript number); TEXT
affinity converts numbers to their text rendering.  Affinity is a
value conversion only; the table constraints of a PRIMARY KEY column —
the rowid alias's datatype requirement and uniqueness — are enforced
by `insertRow` below. -/
def applyAffinity (t : ColType) (v : SqlVal) : SqlVal :=
  match t, v with
  | ColType.integer, SqlVal.real q =>
    if q.den = 1 then SqlVal.int q.num else SqlVal.real q
  | ColType.integer, SqlVal.text s => (textToNum s).getD (SqlVal.text s)
  | ColType.real, SqlVal.int n => SqlVal.real (mkRat n 1)
  | ColType.real, SqlVal.text s =>
    match textToNum s with
    | some (SqlVal.int n) => SqlVal.real (mkRat n 1)
    | some w => w
    | none => SqlVal.text s
  | ColType.text, SqlVal.int n => SqlVal.text (toString n)
  | ColType.text, SqlVal.real q => SqlVal.text (numToText q)
  | _, _ => v

/-- One table of the exported relational file.  Rows are modelled in
insertion order; the exporter receives its records from `getAll` in
ascending primary-key order, which makes insertion order coincide
with the order `SELECT *` returns even for tables whose INTEGER
PRIMARY KEY aliases the rowid. -/
structure SqlTable where
  name : String
  columns : List String
  colTypes : List ColType
  pkCol : Option String
  rows : List (List SqlVal)
deriving DecidableEq

/-- SQLite value equality as used by the UNIQUE check of a primary
key: integers and reals compare numerically, text by content, and a
NULL is never equal to anything (SQL uniqueness treats NULLs as
pairwise distinct). -/
def sqlValEq (a b : SqlVal) : Bool :=
  match a, b with
  | SqlVal.int m, SqlVal.int n => m == n
  | SqlVal.real p, SqlVal.real q => p == q
  | SqlVal.int m, SqlVal.real q => mkRat m 1 == q
  | SqlVal.real p, SqlVal.int n => p == mkRat n 1
  | SqlVal.text s, SqlVal.text t => s == t
  | _, _ => false

/-- Position of the declared primary-key column among the columns
(first occurrence), as the SQL engine resolves it. -/
def pkIndex (columns : List String) (pkCol : Option String) : Option Nat :=
  match pkCol with
  | none => none
  | some kp =>
    (match columns with
     | [] => none
     | c :: rest =>
       if c = kp then some 0
       else (pkIndex rest (some kp)).map (fun i => i + 1))

/-- The cells of one column across the rows inserted so far. -/
def columnCells (rows : List (List SqlVal)) (i : Nat) : List SqlVal :=
  rows.map (fun row => row.getD i SqlVal.null)

/-- The rowid SQLite assigns to a NULL INTEGER PRIMARY KEY: one more
than the largest integer already in the column. -/
def nextRowid (cells : List SqlVal) : Int :=
  (cells.foldl (fun m c =>
    match c with
    | SqlVal.int n => max m n
    | _ => m) 0) + 1

/-- One `INSERT INTO [store] ([record's own fields]) VALUES (...)`
(lines 477-492) against sql.js/SQLite.  A record field that is not a
column of the table is an SQL error that aborts the export; otherwise
each table column receives the record's value under binding and
affinity, NULL when the record lacks the field.  The PRIMARY KEY
column's constraints then apply: an INTEGER PRIMARY KEY aliases the
rowid, so a value that is still not an integer after affinity
conversion raises `datatype mismatch` (the export throws), a NULL
draws a fresh rowid, and a duplicate raises a uniqueness violation;
a PRIMARY KEY of any other type enforces uniqueness only. -/
def insertRow (columns : List String) (colTypes : List ColType)
    (pkCol : Option String) (prev : List (List SqlVal)) (r : JsRec) :
    Except String (List SqlVal) :=
  if r.all (fun p => columns.contains p.1) then
    let row := (columns.zip colTypes).map (fun ct =>
      match getField r ct.1 with
      | some v => applyAffinity ct.2 (bindVal v)
      | none => SqlVal.null)
    match pkIndex columns pkCol with
    | none => Except.ok row
    | some i =>
      let cell := row.getD i SqlVal.null
      let prevCells := columnCells prev i
      if colTypes.getD i ColType.text = ColType.integer then
        match cell with
        | SqlVal.int n =>
          if prevCells.any (fun c => sqlValEq c (SqlVal.int n))
          then Except.error "UNIQUE constraint failed"
          else Except.ok row
        | SqlVal.null => Except.ok (row.set i (SqlVal.int (nextRowid prevCells)))
        | _ => Except.error "datatype mismatch"
      else
        if prevCells.any (fun c => sqlValEq c cell)
        then Except.error "UNIQUE constraint failed"
        else Except.ok row
  else Except.error "no such column"

/-- All rows of one store, in insertion order, each inserted against
the rows already in the table. -/
def insertRows (columns : List String) (colTypes : List ColType)
    (pkCol : Option String) (acc : List (List SqlVal)) :
    List JsRec → Except String (List (List SqlVal))
  | [] => Except.ok acc
  | r :: rest =>
    match insertRow columns colTypes pkCol acc r with
    | Except.error e => Except.error e
    | Except.ok row => insertRows columns colTypes pkCol (acc ++ [row]) rest

/-- The per-store body of `exportToFile` (lines 441-493): an empty
store is skipped (no table); otherwise the first record's fields
become the columns with inferred types, the column equal to the
registry descriptor's `keyPath` (when a descriptor exists) is marked
PRIMARY KEY, and every record is inserted row by row under the PRIMARY
KEY constraints. -/
def exportStoreTable (cfg : Option StoreConfig) (storeName : String)
    (records : List JsRec) : Except String (Option SqlTable) :=
  match records with
  | [] => Except.ok none
  | r0 :: _ =>
    let columns := r0.map (fun p => p.1)
    let colTypes := r0.map (fun p => inferColType p.2)
    let pk := (cfg.map (fun c => c.keyPath)).bind
      (fun kp => if columns.contains kp then some kp else none)
    match insertRows columns colTypes pk [] records with
    | Except.error e => Except.error e
    | Except.ok rows =>
      let t : SqlTable :=
        { name := storeName, columns := columns, colTypes := colTypes,
          pkCol := pk, rows := rows }
      Except.ok (some t)

/-- `sql.js` `exec` value conversion back to JavaScript. -/
def sqlToJs (v : SqlVal) : JsVal :=
  match v with
  | SqlVal.int n => JsVal.num (mkRat n 1)
  | SqlVal.real q => JsVal.num q
  | SqlVal.text s => JsVal.str s
  | SqlVal.null => JsVal.null

/-- `typeof v === 'object'` on a value `JSON.parse` can return:
true exactly for `null`, arrays and objects. -/
def typeofObject (v : JsVal) : Bool :=
  match v with
  | JsVal.null => true
  | JsVal.arr _ => true
  | JsVal.obj _ => true
  | _ => false

/-- The revival heuristic of `_importFromSQLite` (lines 710-724): a
string cell is replaced by `JSON.parse` of itself when that parse
succeeds and yields a value of `object` type (which includes `null`
and arrays); every other cell, and every string whose parse fails or
yields a non-object, is kept as is. -/
def reviveCell (v : JsVal) : JsVal :=
  match v with
  | JsVal.str s =>
    (match jsonParse s with
     | some parsed => if typeofObject parsed then parsed else JsVal.str s
     | none => JsVal.str s)
  | _ => v

/-- The per-table reconstruction of `_importFromSQLite` (lines
699-727): each row is zipped with the column names into a record, the
revival heuristic applied to every cell. -/
def importTableRecords (t : SqlTable) : List JsRec :=
  t.rows.map (fun row => t.columns.zip (row.map (fun c => reviveCell (sqlToJs c))))

/-- Export of one store to its relational table followed by
reconstruction of that store's records from the table: the per-store
composition of `importFromRelationalFile` after
`exportToRelationalFile` (an empty store produces no table and hence
no records). -/
def relationalRoundTrip (cfg : Option StoreConfig) (storeName : String)
    (records : List JsRec) : Except String (List JsRec) :=
  match exportStoreTable cfg storeName records with
  | Except.error e => Except.error e
  | Except.ok none => Except.ok []
  | Except.ok (some t) => Except.ok (importTableRecords t)

/-! ### The default export filename (`exportToFile`, lines 499-503) -/

/-- `.replace(/[:.]/g, '-')`: every colon and full stop becomes a
hyphen. -/
def replaceColonDot (cs : List Char) : List Char :=
  cs.map (fun c => if c = ':' ∨ c = '.' then '-' else c)

/-- `.slice(0, -5)`: all but the last five characters. -/
def sliceMinus5 (cs : List Char) : List Char :=
  cs.take (cs.length - 5)

/-- The default-filename computation of `exportToFile` (lines
499-503): `dbName + '_' + timestamp + '.db'`, where `timestamp` is
`new Date().toISOString().replace(/[:.]/g, '-').slice(0, -5)` and
`isoNow` stands for the `toISOString()` result. -/
def defaultExportFilename (dbName isoNow : String) : String :=
  dbName ++ "_" ++ String.mk (sliceMinus5 (replaceColonDot isoNow.toList)) ++ ".db"

/-- Modelled from the spec: the default filename is
"`{databaseName}_{ISO-8601 timestamp with ':' and '.' stripped}.db`",
reading "stripped" as removed. -/
def specExportFilename (dbName isoNow : String) : String :=
  dbName ++ "_" ++ String.mk (isoNow.toList.filter (fun c => !(c == ':' || c == '.'))) ++ ".db"

/-! ### Auxiliary definitions used by the theorems -/

def staleRecordsStore : PhysStore :=
  { keyPath := "old", autoIncrement := false, indexes := [], nextKey := 7,
    contents := [(JsVal.num (mkRat 3 1), [("old", JsVal.num (mkRat 3 1))])] }

/-- A store already holding the record with primary key 1, for the C1
witness. -/
def dupKeyStore : PhysStore :=
  { keyPath := "id", autoIncrement := false, indexes := [], nextKey := 1,
    contents := [(JsVal.num (mkRat 1 1), [("id", JsVal.num (mkRat 1 1))])] }

/-- An empty auto-increment store, for the C1 witness. -/
def emptyAutoStore : PhysStore :=
  { keyPath := "id", autoIncrement := true, indexes := [], nextKey := 1,
    contents := [] }

/-- An empty store with explicit key path `id` and no key generator,
for the C1 counterexample. -/
def emptyPlainStore : PhysStore :=
  { keyPath := "id", autoIncrement := false, indexes := [], nextKey := 1,
    contents := [] }

/-- `true` exactly on numbers. -/
def isNumVal (v : JsVal) : Bool :=
  match v with
  | JsVal.num _ => true
  | _ => false

/-- `Number.isInteger` on a JS value: true exactly on integral
numbers. -/
def isIntNum (v : JsVal) : Bool :=
  match v with
  | JsVal.num q => q.den == 1
  | _ => false

/-- Values the relational round-trip reproduces exactly: a number, or
a string that the revival heuristic keeps (its `JSON.parse` fails or
yields a non-object value). -/
def safeScalar (v : JsVal) : Bool :=
  match v with
  | JsVal.num _ => true
  | JsVal.str s =>
    (match jsonParse s with
     | some j => !typeofObject j
     | none => true)
  | _ => false

/-- The per-column shape agreement between a record and the sampled
first record: same field names in the same order, and per field the
same kind of value (number vs. string). -/
def sameShapeAs (r r0 : JsRec) : Prop :=
  List.Forall₂ (fun p q => p.1 = q.1 ∧ isNumVal p.2 = isNumVal q.2) r r0

/-- The part of a store's state that decides whether a record's
insertion fails: key path and auto-increment flag. -/
def shapeAt (db : List (String × PhysStore)) (m : String) :
    Option (String × Bool) :=
  (lookupStore db m).map (fun ps => (ps.keyPath, ps.autoIncrement))

/-! ## Theorems -/

/-! ### C5: cursor veto affects accumulation only -/

/-- C5.  For every cursor traversal, the visitor may veto inclusion of
the current record in the collected sequence by returning the sentinel
`false`, but the traversal always continues to the next record
regardless of the visitor's return value: the collected sequence is
exactly the filter of the traversed records by "not vetoed", returned
once the cursor is exhausted. -/
theorem cursorCollect_filters_only (records : List JsRec)
    (callback : JsRec → JsVal) :
    cursorCollect records callback =
      records.filter (fun r => !vetoed (callback r)) := by
  induction records with
  | nil => rfl
  | cons r rest ih =>
    cases h : callback r
    case bool b =>
      cases b <;> simp [cursorCollect, h, vetoed, ih, List.filter_cons]
    all_goals simp [cursorCollect, h, vetoed, ih, List.filter_cons]

/-! ### C7: index field path defaults to the index name -/

/-- C7.  For every secondary-index descriptor whose `keyPath` option is
unspecified, the created index uses the index's name as its field path;
in particular all four bootstrap indexes of the `records` store —
including `index` and `title`, whose field paths are supplied under the
differently-cased `keypath` key — are created with field path equal to
their name. -/
theorem index_fieldPath_defaults_to_name :
    (∀ i : RawIndex, i.keyPath = none → (createdIndex i).fieldPath = i.name) ∧
    recordsStoreConfig.indexes.map createdIndex =
      [⟨"date", "date", false⟩, ⟨"index", "index", false⟩,
       ⟨"title", "title", false⟩, ⟨"record", "record", false⟩] := by
  constructor
  · intro i h
    simp [createdIndex, jsOrStr, h]
  · rfl

/-- Witness for C7: the bootstrap `index` entry (field path supplied
only under the lowercase `keypath` key) is created with field path
`"index"`. -/
theorem index_fieldPath_defaults_to_name_witness :
    ({ name := "index", keypathLower := some "index" } : RawIndex).keyPath = none ∧
    (createdIndex { name := "index", keypathLower := some "index" }).fieldPath = "index" :=
  ⟨rfl, index_fieldPath_defaults_to_name.1
    { name := "index", keypathLower := some "index" } rfl⟩

/-! ### C8: upgrade drops and recreates -/

theorem lookupStore_append (xs ys : List (String × PhysStore)) (n : String) :
    lookupStore (xs ++ ys) n =
      (match lookupStore xs n with
       | some s => some s
       | none => lookupStore ys n) := by
  induction xs with
  | nil => rfl
  | cons p rest ih =>
    obtain ⟨pn, ps⟩ := p
    by_cases hp : pn = n <;> simp [lookupStore, hp, ih]

theorem lookupStore_filter_self (db : List (String × PhysStore)) (m : String) :
    lookupStore (db.filter (fun p => p.1 != m)) m = none := by
  induction db with
  | nil => rfl
  | cons p rest ih =>
    obtain ⟨pn, ps⟩ := p
    by_cases hp : pn = m
    · simp [List.filter_cons, hp, ih]
    · simp [List.filter_cons, hp, lookupStore, ih]

theorem lookupStore_filter_ne (db : List (String × PhysStore))
    (n m : String) (h : n ≠ m) :
    lookupStore (db.filter (fun p => p.1 != m)) n = lookupStore db n := by
  have hmn : ¬(m = n) := fun hc => h hc.symm
  induction db with
  | nil => rfl
  | cons p rest ih =>
    obtain ⟨pn, ps⟩ := p
    by_cases hp : pn = m
    · subst hp
      simp [List.filter_cons, lookupStore, hmn, ih]
    · by_cases hn : pn = n
      · subst hn
        simp [List.filter_cons, lookupStore, hp]
      · simp [List.filter_cons, lookupStore, hp, hn, ih]

theorem lookupStore_upgradeStep_self (db : List (String × PhysStore))
    (n : String) (cfg : StoreConfig) :
    lookupStore (upgradeStep db (n, cfg)) n = some (freshStore cfg) := by
  unfold upgradeStep
  rw [lookupStore_append, lookupStore_filter_self db n]
  simp [lookupStore]

theorem lookupStore_upgradeStep_ne (db : List (String × PhysStore))
    (m : String) (e : String × StoreConfig) (h : m ≠ e.1) :
    lookupStore (upgradeStep db e) m = lookupStore db m := by
  obtain ⟨n, cfg⟩ := e
  simp only at h
  unfold upgradeStep
  rw [lookupStore_append, lookupStore_filter_ne db m n h]
  cases lookupStore db m with
  | some s => rfl
  | none =>
    have hnm : ¬(n = m) := fun hc => h hc.symm
    simp [lookupStore, hnm]

theorem applyUpgrade_not_mem (registry : List (String × StoreConfig))
    (db : List (String × PhysStore)) (n : String)
    (h : n ∉ registry.map Prod.fst) :
    lookupStore (applyUpgrade registry db) n = lookupStore db n := by
  induction registry generalizing db with
  | nil => rfl
  | cons e rest ih =>
    simp only [List.map_cons, List.mem_cons] at h
    push_neg at h
    show lookupStore (applyUpgrade rest (upgradeStep db e)) n = _
    rw [ih (upgradeStep db e) h.2, lookupStore_upgradeStep_ne db n e h.1]

/-- C8.  During the upgrade protocol, every descriptor of the Schema
Registry ends up as a store built from the descriptor alone — key
path, auto-increment flag and secondary indexes taken from the
descriptor, key generator reset and contents empty — regardless of any
store of the same name previously in the database: an existing store
is dropped and recreated, never altered in place. -/
theorem upgrade_drops_and_recreates (registry : List (String × StoreConfig))
    (db : List (String × PhysStore)) (name : String) (cfg : StoreConfig)
    (hnd : (registry.map Prod.fst).Nodup) (hmem : (name, cfg) ∈ registry) :
    lookupStore (applyUpgrade registry db) name = some (freshStore cfg) := by
  induction registry generalizing db with
  | nil => cases hmem
  | cons e rest ih =>
    simp only [List.map_cons, List.nodup_cons] at hnd
    rcases List.mem_cons.mp hmem with he | hr
    · subst he
      show lookupStore (applyUpgrade rest (upgradeStep db (name, cfg))) name = _
      rw [applyUpgrade_not_mem rest _ name hnd.1,
        lookupStore_upgradeStep_self db name cfg]
    · exact ih (upgradeStep db e) hnd.2 hr




/-- Witness for C8: upgrading a database that already holds a `records`
store with different key path and stale data leaves exactly the fresh
store built from the bootstrap descriptor. -/
theorem upgrade_drops_and_recreates_witness :
    lookupStore
      (applyUpgrade [("records", recordsStoreConfig)]
        [("records", staleRecordsStore)]) "records" =
      some (freshStore recordsStoreConfig) :=
  upgrade_drops_and_recreates [("records", recordsStoreConfig)]
    [("records", staleRecordsStore)] "records" recordsStoreConfig
    (by simp) (by simp)

/-! ### C1: multi-record `add` is all-or-nothing -/

theorem addSubRequests_length (items : List JsRec) :
    ∀ st stf ks, addSubRequests st items = Except.ok (stf, ks) →
      ks.length = items.length := by
  induction items with
  | nil =>
    intro st stf ks h
    simp only [addSubRequests, Except.ok.injEq, Prod.mk.injEq] at h
    rw [← h.2]
    rfl
  | cons item rest ih =>
    intro st stf ks h
    simp only [addSubRequests] at h
    cases ha : addOne st item with
    | error e =>
      simp only [ha] at h
      exact Except.noConfusion h
    | ok p =>
      obtain ⟨st1, k⟩ := p
      simp only [ha] at h
      cases hr : addSubRequests st1 rest with
      | error e =>
        simp only [hr] at h
        exact Except.noConfusion h
      | ok q =>
        obtain ⟨st2, ks1⟩ := q
        simp only [hr, Except.ok.injEq, Prod.mk.injEq] at h
        rw [← h.2, List.length_cons, ih st1 st2 ks1 hr]
        rfl

theorem issueRequests_all_ok (st : PhysStore) (items : List JsRec)
    (h : ∀ item ∈ items, addThrowsSync st item = false) :
    issueRequests st items = (items, none) := by
  induction items with
  | nil => rfl
  | cons item rest ih =>
    have hh := h item (List.mem_cons_self item rest)
    simp only [issueRequests, hh, Bool.false_eq_true, if_false,
      ih (fun x hx => h x (List.mem_cons_of_mem item hx))]

/-- C1 (amended).  For every multi-record `add` call in which every
record passes the synchronous key check `objectStore.add` performs at
issue time (its key-path value present and a valid key, or absent on
an auto-increment store), the returned promise settles only when the
enclosing transaction completes: if any sub-request fails (e.g. a
duplicate primary key), the promise rejects with the engine's
transaction-level error and the store is exactly as before the call —
no record from the call is visible (all-or-nothing) — and on success
it resolves with one assigned key per input record, in input order. -/
theorem addCall_transaction_atomicity (st : PhysStore) (items : List JsRec)
    (hsync : ∀ item ∈ items, addThrowsSync st item = false) :
    (∀ e, (addCall st items).2 = Except.error e → (addCall st items).1 = st) ∧
    (∀ ks, (addCall st items).2 = Except.ok ks → ks.length = items.length) := by
  have hissue := issueRequests_all_ok st items hsync
  cases hs : addSubRequests st items with
  | error e1 =>
    constructor
    · intro e _
      simp [addCall, hissue, hs]
    · intro ks hk
      simp [addCall, hissue, hs] at hk
  | ok p =>
    obtain ⟨stf, ks1⟩ := p
    constructor
    · intro e he
      simp [addCall, hissue, hs] at he
    · intro ks hk
      simp only [addCall, hissue, hs, Except.ok.injEq] at hk
      exact hk ▸ addSubRequests_length items st stf ks1 hs

/-- C1 is false as stated: at the call `add([{id:1}, {id:null}])`
against an empty store without a key generator, `objectStore.add`
throws a synchronous `DataError` on the second record inside the
promise executor, so the promise rejects before the transaction
completes, while the first record's already-issued request commits:
the promise is rejected with the error, yet a record from the call is
visible afterwards — a partial result. -/
theorem addCall_sync_throw_partial_counterexample :
    (addCall emptyPlainStore
      [[("id", JsVal.num (mkRat 1 1))], [("id", JsVal.null)]]).2 =
      Except.error DBErr.dataErr ∧
    (addCall emptyPlainStore
      [[("id", JsVal.num (mkRat 1 1))], [("id", JsVal.null)]]).1.contents =
      [(JsVal.num (mkRat 1 1), [("id", JsVal.num (mkRat 1 1))])] ∧
    (addCall emptyPlainStore
      [[("id", JsVal.num (mkRat 1 1))], [("id", JsVal.null)]]).1 ≠
      emptyPlainStore := by
  refine ⟨rfl, rfl, ?_⟩
  intro h
  have hc := congrArg PhysStore.contents h
  have hc2 : ([(JsVal.num (mkRat 1 1), [("id", JsVal.num (mkRat 1 1))])] :
      List (JsVal × JsRec)) = [] := hc
  exact List.noConfusion hc2

/-- Witness for the amended C1: both records of
`add([{id:1}, {id:2}])` pass the synchronous check; against a store
already holding key 1 the call rejects with `ConstraintError` and
leaves the store untouched, and against an empty auto-increment store
a two-record call resolves with two keys. -/
theorem addCall_transaction_atomicity_witness :
    (∀ item ∈ [[("id", JsVal.num (mkRat 1 1))], [("id", JsVal.num (mkRat 2 1))]],
      addThrowsSync dupKeyStore item = false) ∧
    (addCall dupKeyStore [[("id", JsVal.num (mkRat 1 1))],
        [("id", JsVal.num (mkRat 2 1))]]).2 =
      Except.error DBErr.constraintErr ∧
    (addCall dupKeyStore [[("id", JsVal.num (mkRat 1 1))],
        [("id", JsVal.num (mkRat 2 1))]]).1 = dupKeyStore ∧
    ([JsVal.num (mkRat 1 1), JsVal.num (mkRat 2 1)] : List JsVal).length = 2 :=
  ⟨by decide, rfl,
   (addCall_transaction_atomicity dupKeyStore
       [[("id", JsVal.num (mkRat 1 1))], [("id", JsVal.num (mkRat 2 1))]]
       (by decide)).1 DBErr.constraintErr rfl,
   (addCall_transaction_atomicity emptyAutoStore
       [[("x", JsVal.str "a")], [("y", JsVal.str "b")]] (by decide)).2
     [JsVal.num (mkRat 1 1), JsVal.num (mkRat 2 1)] rfl⟩

/-! ### C10: the JSON revival heuristic on imported text cells -/

/-- C10.  When importing from a relational file, a TEXT cell whose
content parses as JSON to a value of `object` type — which includes
the string `"null"` (parsing to the null value) and strings encoding
arrays, not only object-shaped structures — is replaced by that parsed
value; every other TEXT cell is kept as text. -/
theorem reviveCell_object_strings :
    (∀ s j, jsonParse s = some j → typeofObject j = true →
      reviveCell (sqlToJs (SqlVal.text s)) = j) ∧
    (∀ s, (∀ j, jsonParse s = some j → typeofObject j = false) →
      reviveCell (sqlToJs (SqlVal.text s)) = JsVal.str s) := by
  constructor
  · intro s j hp ht
    simp [reviveCell, sqlToJs, hp, ht]
  · intro s hs
    cases hp : jsonParse s with
    | none => simp [reviveCell, sqlToJs, hp]
    | some j => simp [reviveCell, sqlToJs, hp, hs j hp]

/-- Witness for C10: the text cell `"null"` is revived to the null
value, `"[1,2]"` to an array, and the plain text `"2024-01-01"` and
the numeral text `"123"` are kept as text. -/
theorem reviveCell_object_strings_witness :
    reviveCell (sqlToJs (SqlVal.text "null")) = JsVal.null ∧
    reviveCell (sqlToJs (SqlVal.text "[1,2]")) =
      JsVal.arr [JsVal.num (mkRat 1 1), JsVal.num (mkRat 2 1)] ∧
    reviveCell (sqlToJs (SqlVal.text "2024-01-01")) = JsVal.str "2024-01-01" ∧
    reviveCell (sqlToJs (SqlVal.text "123")) = JsVal.str "123" :=
  ⟨reviveCell_object_strings.1 "null" JsVal.null rfl rfl,
   reviveCell_object_strings.1 "[1,2]"
     (JsVal.arr [JsVal.num (mkRat 1 1), JsVal.num (mkRat 2 1)]) rfl rfl,
   reviveCell_object_strings.2 "2024-01-01" (fun j hj => by cases hj),
   reviveCell_object_strings.2 "123"
     (fun j hj => by
       have : j = JsVal.num (mkRat 123 1) := by
         have h2 : jsonParse "123" = some (JsVal.num (mkRat 123 1)) := rfl
         rw [h2] at hj; cases hj; rfl
       rw [this]; rfl)⟩

/-! ### C6: the default export filename -/

theorem replaceColonDot_id (l : List Char)
    (hl : ∀ c ∈ l, c ≠ ':' ∧ c ≠ '.') : replaceColonDot l = l := by
  induction l with
  | nil => rfl
  | cons c cs ih =>
    have hc := hl c (List.mem_cons_self c cs)
    have : ¬(c = ':' ∨ c = '.') := by
      intro hor
      rcases hor with h1 | h1
      · exact hc.1 h1
      · exact hc.2 h1
    simp only [replaceColonDot, List.map_cons, if_neg this]
    have ihr := ih (fun x hx => hl x (List.mem_cons_of_mem c hx))
    simp only [replaceColonDot] at ihr
    rw [ihr]

theorem replaceColonDot_append (a b : List Char) :
    replaceColonDot (a ++ b) = replaceColonDot a ++ replaceColonDot b := by
  simp [replaceColonDot]

theorem timestampTransform_core (date hh mm ss ms : List Char)
    (hdate : ∀ c ∈ date, c ≠ ':' ∧ c ≠ '.')
    (hhh : ∀ c ∈ hh, c ≠ ':' ∧ c ≠ '.')
    (hmmh : ∀ c ∈ mm, c ≠ ':' ∧ c ≠ '.')
    (hssh : ∀ c ∈ ss, c ≠ ':' ∧ c ≠ '.')
    (hms : ms.length = 3) :
    sliceMinus5 (replaceColonDot
        (date ++ ['T'] ++ hh ++ [':'] ++ mm ++ [':'] ++ ss ++ ['.'] ++ ms ++ ['Z'])) =
      date ++ ['T'] ++ hh ++ ['-'] ++ mm ++ ['-'] ++ ss := by
  have hT : replaceColonDot ['T'] = ['T'] := rfl
  have hcolon : replaceColonDot [':'] = ['-'] := rfl
  have hdot : replaceColonDot ['.'] = ['-'] := rfl
  have hZ : replaceColonDot ['Z'] = ['Z'] := rfl
  have hsplit : replaceColonDot
      (date ++ ['T'] ++ hh ++ [':'] ++ mm ++ [':'] ++ ss ++ ['.'] ++ ms ++ ['Z']) =
      (date ++ ['T'] ++ hh ++ ['-'] ++ mm ++ ['-'] ++ ss) ++
        (['-'] ++ replaceColonDot ms ++ ['Z']) := by
    simp only [replaceColonDot_append]
    rw [replaceColonDot_id date hdate, replaceColonDot_id hh hhh,
      replaceColonDot_id mm hmmh, replaceColonDot_id ss hssh,
      hT, hcolon, hdot, hZ]
    simp [List.append_assoc]
  rw [hsplit]
  unfold sliceMinus5
  have hlen : ((date ++ ['T'] ++ hh ++ ['-'] ++ mm ++ ['-'] ++ ss) ++
      (['-'] ++ replaceColonDot ms ++ ['Z'])).length - 5 =
      (date ++ ['T'] ++ hh ++ ['-'] ++ mm ++ ['-'] ++ ss).length := by
    have hmslen : (replaceColonDot ms).length = 3 := by
      simp [replaceColonDot, hms]
    simp [List.length_append, hmslen]
    omega
  rw [hlen, List.take_left]

/-- C6 (corrected).  On the reference timestamp
`2025-01-02T03:04:05.678Z`, the produced default filename is
`mimiDate_2025-01-02T03-04-05.db`, not the name obtained by stripping
(removing) `':'` and `'.'` from the full ISO-8601 timestamp as the
claim states: the code replaces those characters with hyphens and
additionally cuts off the final five characters. -/
theorem defaultExportFilename_not_stripped :
    defaultExportFilename "mimiDate" "2025-01-02T03:04:05.678Z" =
      "mimiDate_2025-01-02T03-04-05.db" ∧
    specExportFilename "mimiDate" "2025-01-02T03:04:05.678Z" =
      "mimiDate_2025-01-02T030405678Z.db" ∧
    defaultExportFilename "mimiDate" "2025-01-02T03:04:05.678Z" ≠
      specExportFilename "mimiDate" "2025-01-02T03:04:05.678Z" := by
  refine ⟨rfl, rfl, ?_⟩
  decide

/-- C6 (amended).  For every call to `exportToFile` with no filename
argument, at a clock reading whose ISO-8601 rendering is
`date`T`hh`:`mm`:`ss`.`ms`Z (with `':'` and `'.'` occurring only as
the separators shown and a three-character millisecond field), the
produced file's name equals the database name, an underscore, the
timestamp with each `':'` and `'.'` replaced by `'-'` and the final
five characters (the millisecond field, its leading separator and the
zone marker) removed, and the extension `.db`. -/
theorem defaultExportFilename_replaced_truncated (dbName : String)
    (date hh mm ss ms : List Char)
    (hdate : ∀ c ∈ date, c ≠ ':' ∧ c ≠ '.')
    (hhh : ∀ c ∈ hh, c ≠ ':' ∧ c ≠ '.')
    (hmmh : ∀ c ∈ mm, c ≠ ':' ∧ c ≠ '.')
    (hssh : ∀ c ∈ ss, c ≠ ':' ∧ c ≠ '.')
    (hms : ms.length = 3) :
    defaultExportFilename dbName
        (String.mk (date ++ ['T'] ++ hh ++ [':'] ++ mm ++ [':'] ++ ss ++
          ['.'] ++ ms ++ ['Z'])) =
      dbName ++ "_" ++
        String.mk (date ++ ['T'] ++ hh ++ ['-'] ++ mm ++ ['-'] ++ ss) ++ ".db" := by
  show dbName ++ "_" ++ String.mk (sliceMinus5 (replaceColonDot _)) ++ ".db" = _
  have ht : (String.mk (date ++ ['T'] ++ hh ++ [':'] ++ mm ++ [':'] ++ ss ++
      ['.'] ++ ms ++ ['Z'])).toList =
      date ++ ['T'] ++ hh ++ [':'] ++ mm ++ [':'] ++ ss ++ ['.'] ++ ms ++ ['Z'] := rfl
  rw [ht, timestampTransform_core date hh mm ss ms hdate hhh hmmh hssh hms]

/-- Witness for the amended C6: database `mimiDate` at the reference
instant yields `mimiDate_2025-01-02T03-04-05.db`. -/
theorem defaultExportFilename_replaced_truncated_witness :
    defaultExportFilename "mimiDate" "2025-01-02T03:04:05.678Z" =
      "mimiDate_2025-01-02T03-04-05.db" := by
  have h := defaultExportFilename_replaced_truncated "mimiDate"
    "2025-01-02".toList "03".toList "04".toList "05".toList "678".toList
    (by decide) (by decide) (by decide) (by decide) (by decide)
  exact h

/-! ### C2: the relational round-trip -/





theorem cell_roundtrip (v w : JsVal) (hsafe : safeScalar v = true)
    (hw : safeScalar w = true) (hkind : isNumVal v = isNumVal w) :
    reviveCell (sqlToJs (applyAffinity (inferColType w) (bindVal v))) = v := by
  cases v with
  | num q =>
    cases w with
    | num q' =>
      by_cases hq : q.den = 1 <;> by_cases hq' : q'.den = 1
      all_goals
        simp only [inferColType, bindVal, applyAffinity, sqlToJs, reviveCell,
          hq, hq', if_pos, if_neg, ite_true, ite_false]
      all_goals rw [show (1 : Nat) = q.den from hq.symm, Rat.mkRat_self]
    | str s' => simp [isNumVal] at hkind
    | null => simp [safeScalar] at hw
    | bool b => simp [safeScalar] at hw
    | arr xs => simp [safeScalar] at hw
    | obj fs => simp [safeScalar] at hw
  | str s =>
    cases w with
    | num q' => simp [isNumVal] at hkind
    | str s' =>
      simp only [inferColType, bindVal, applyAffinity, sqlToJs]
      simp only [safeScalar] at hsafe
      cases hp : jsonParse s with
      | none => simp [reviveCell, hp]
      | some j =>
        rw [hp] at hsafe
        simp only [Bool.not_eq_true'] at hsafe
        simp [reviveCell, hp, hsafe]
    | null => simp [safeScalar] at hw
    | bool b => simp [safeScalar] at hw
    | arr xs => simp [safeScalar] at hw
    | obj fs => simp [safeScalar] at hw
  | null => simp [safeScalar] at hsafe
  | bool b => simp [safeScalar] at hsafe
  | arr xs => simp [safeScalar] at hsafe
  | obj fs => simp [safeScalar] at hsafe



theorem sameShapeAs_fst_mem (r r0 : JsRec) (h : sameShapeAs r r0) :
    ∀ p ∈ r, p.1 ∈ r0.map (fun p => p.1) := by
  induction h with
  | nil => intro p hp; cases hp
  | cons hpq htail ih =>
    intro p hp
    rcases List.mem_cons.mp hp with h1 | h1
    · rw [List.map_cons, h1, hpq.1]
      exact List.mem_cons_self _ _
    · rw [List.map_cons]
      exact List.mem_cons_of_mem _ (ih p h1)

theorem zipback_roundtrip (r r0 : JsRec)
    (hnd : (r0.map (fun p => p.1)).Nodup)
    (hshape : sameShapeAs r r0)
    (hsafe : ∀ p ∈ r, safeScalar p.2 = true)
    (hsafe0 : ∀ p ∈ r0, safeScalar p.2 = true) :
    (r0.map (fun p => p.1)).zip
      ((((r0.map (fun p => p.1)).zip (r0.map (fun p => inferColType p.2))).map
        (fun ct =>
          match getField r ct.1 with
          | some v => applyAffinity ct.2 (bindVal v)
          | none => SqlVal.null)).map (fun c => reviveCell (sqlToJs c))) = r := by
  induction hshape with
  | nil => rfl
  | @cons p q r' r0' hpq htail ih =>
    simp only [List.map_cons, List.zip_cons_cons]
    have hget : getField (p :: r') q.1 = some p.2 := by
      simp [getField, hpq.1]
    have hq1 : q.1 ∉ r0'.map (fun p => p.1) := by
      simp only [List.map_cons, List.nodup_cons] at hnd
      exact hnd.1
    have hcell : reviveCell (sqlToJs (applyAffinity (inferColType q.2) (bindVal p.2))) = p.2 :=
      cell_roundtrip p.2 q.2 (hsafe p (List.mem_cons_self p r'))
        (hsafe0 q (List.mem_cons_self q r0')) hpq.2
    have hcongr : ((r0'.map (fun p => p.1)).zip (r0'.map (fun p => inferColType p.2))).map
        (fun ct =>
          match getField (p :: r') ct.1 with
          | some v => applyAffinity ct.2 (bindVal v)
          | none => SqlVal.null) =
        ((r0'.map (fun p => p.1)).zip (r0'.map (fun p => inferColType p.2))).map
        (fun ct =>
          match getField r' ct.1 with
          | some v => applyAffinity ct.2 (bindVal v)
          | none => SqlVal.null) := by
      apply List.map_congr_left
      intro ct hct
      have hc1 : ct.1 ∈ r0'.map (fun p => p.1) := (List.of_mem_zip hct).1
      have hne : ¬(p.1 = ct.1) := by
        rw [hpq.1]
        intro hc
        exact hq1 (hc ▸ hc1)
      simp [getField, hne]
    simp only [List.map_cons, hget, hcongr]
    rw [hcell]
    have hnd' : (r0'.map (fun p => p.1)).Nodup := by
      simp only [List.map_cons, List.nodup_cons] at hnd
      exact hnd.2
    rw [ih hnd' (fun x hx => hsafe x (List.mem_cons_of_mem p hx))
      (fun x hx => hsafe0 x (List.mem_cons_of_mem q hx))]
    rw [← hpq.1]

theorem sameShapeAs_map_fst (r r0 : JsRec) (h : sameShapeAs r r0) :
    r.map (fun p => p.1) = r0.map (fun p => p.1) := by
  induction h with
  | nil => rfl
  | cons hpq htail ih => simp only [List.map_cons, hpq.1, ih]

theorem sameShapeAs_get_some (x r0 : JsRec) (h : sameShapeAs x r0) (i : Nat)
    (q0 : String × JsVal) (hq0 : r0.get? i = some q0) :
    ∃ px, x.get? i = some px ∧ px.1 = q0.1 ∧ isNumVal px.2 = isNumVal q0.2 := by
  induction h generalizing i with
  | nil => simp at hq0
  | cons hpq htail ih =>
    cases i with
    | zero =>
      simp only [List.get?_cons_zero, Option.some.injEq] at hq0
      subst hq0
      exact ⟨_, rfl, hpq.1, hpq.2⟩
    | succ n =>
      simp only [List.get?_cons_succ] at hq0
      obtain ⟨px, h1, h2⟩ := ih n hq0
      exact ⟨px, by simpa using h1, h2⟩

theorem getField_at_nodup (r : JsRec) (kp : String) (i : Nat)
    (hnd : (r.map (fun p => p.1)).Nodup)
    (hg : (r.map (fun p => p.1)).get? i = some kp) :
    getField r kp = (r.get? i).map (fun p => p.2) := by
  induction r generalizing i with
  | nil => simp at hg
  | cons p rest ih =>
    simp only [List.map_cons, List.nodup_cons] at hnd
    cases i with
    | zero =>
      simp only [List.map_cons, List.get?_cons_zero, Option.some.injEq] at hg
      subst hg
      simp [getField]
    | succ n =>
      simp only [List.map_cons, List.get?_cons_succ] at hg
      have hkpmem : kp ∈ rest.map (fun p => p.1) := List.get?_mem hg
      have hne : ¬(p.1 = kp) := fun hc => hnd.1 (hc.symm ▸ hkpmem)
      have hstep : getField (p :: rest) kp = getField rest kp := by
        show (if p.1 = kp then some p.2 else getField rest kp) = getField rest kp
        exact if_neg hne
      rw [hstep]
      exact ih n hnd.2 hg

theorem pkIndex_spec (columns : List String) (kp : String) (hmem : kp ∈ columns) :
    ∃ i, pkIndex columns (some kp) = some i ∧ columns.get? i = some kp := by
  induction columns with
  | nil => cases hmem
  | cons c rest ih =>
    by_cases hc : c = kp
    · refine ⟨0, ?_, ?_⟩
      · show (if c = kp then some 0
          else (pkIndex rest (some kp)).map (fun i => i + 1)) = some 0
        rw [if_pos hc]
      · rw [List.get?_cons_zero, hc]
    · rcases List.mem_cons.mp hmem with h | h
      · exact absurd h.symm hc
      · obtain ⟨i, h1, h2⟩ := ih h
        refine ⟨i + 1, ?_, ?_⟩
        · show (if c = kp then some 0
            else (pkIndex rest (some kp)).map (fun i => i + 1)) = some (i + 1)
          rw [if_neg hc, h1, Option.map_some']
        · rw [List.get?_cons_succ]
          exact h2

theorem insertRows_nopk_ok (columns : List String) (colTypes : List ColType)
    (records : List JsRec) :
    ∀ acc : List (List SqlVal),
      (∀ r ∈ records, r.all (fun p => columns.contains p.1) = true) →
      insertRows columns colTypes none acc records =
        Except.ok (acc ++ records.map (fun r =>
          (columns.zip colTypes).map (fun ct =>
            match getField r ct.1 with
            | some v => applyAffinity ct.2 (bindVal v)
            | none => SqlVal.null))) := by
  induction records with
  | nil =>
    intro acc _
    simp [insertRows]
  | cons r rest ih =>
    intro acc h
    have hr := h r (List.mem_cons_self r rest)
    have hrow : insertRow columns colTypes none acc r =
        Except.ok ((columns.zip colTypes).map (fun ct =>
          match getField r ct.1 with
          | some v => applyAffinity ct.2 (bindVal v)
          | none => SqlVal.null)) := by
      simp only [insertRow, if_pos hr, pkIndex]
    simp only [insertRows, hrow]
    rw [ih _ (fun x hx => h x (List.mem_cons_of_mem r hx))]
    simp [List.append_assoc]

theorem insertRow_pk_ok (r0 : JsRec) (kp : String) (i : Nat) (q0 : String × JsVal)
    (done : List JsRec) (r : JsRec)
    (hnd : (r0.map (fun p => p.1)).Nodup)
    (hq0 : r0.get? i = some q0) (hq0k : q0.1 = kp)
    (hpki : pkIndex (r0.map (fun p => p.1)) (some kp) = some i)
    (hsafe0 : ∀ p ∈ r0, safeScalar p.2 = true)
    (hshr : sameShapeAs r r0)
    (hsafer : ∀ p ∈ r, safeScalar p.2 = true)
    (hshd : ∀ d ∈ done, sameShapeAs d r0)
    (hsafed : ∀ d ∈ done, ∀ p ∈ d, safeScalar p.2 = true)
    (hint : isIntNum q0.2 = true →
      isIntNum ((getField r kp).getD JsVal.null) = true ∧
      ∀ d ∈ done, isIntNum ((getField d kp).getD JsVal.null) = true)
    (hdist : ∀ d ∈ done, getField d kp ≠ getField r kp) :
    insertRow (r0.map (fun p => p.1)) (r0.map (fun p => inferColType p.2)) (some kp)
      (done.map (fun d =>
        ((r0.map (fun p => p.1)).zip (r0.map (fun p => inferColType p.2))).map
          (fun ct =>
            match getField d ct.1 with
            | some v => applyAffinity ct.2 (bindVal v)
            | none => SqlVal.null))) r =
      Except.ok
        (((r0.map (fun p => p.1)).zip (r0.map (fun p => inferColType p.2))).map
          (fun ct =>
            match getField r ct.1 with
            | some v => applyAffinity ct.2 (bindVal v)
            | none => SqlVal.null)) := by
  have hzip : (r0.map (fun p => p.1)).zip (r0.map (fun p => inferColType p.2)) =
      r0.map (fun p => (p.1, inferColType p.2)) := List.zip_map' _ _ _
  have hkey : ∀ x : JsRec, sameShapeAs x r0 → (∀ p ∈ x, safeScalar p.2 = true) →
      ∃ vx, getField x kp = some vx ∧ safeScalar vx = true ∧
        isNumVal vx = isNumVal q0.2 ∧
        (((r0.map (fun p => p.1)).zip (r0.map (fun p => inferColType p.2))).map
          (fun ct =>
            match getField x ct.1 with
            | some v => applyAffinity ct.2 (bindVal v)
            | none => SqlVal.null)).getD i SqlVal.null =
          applyAffinity (inferColType q0.2) (bindVal vx) := by
    intro x hshx hsafex
    obtain ⟨px, hpx, hpxk1, hpxk2⟩ := sameShapeAs_get_some x r0 hshx i q0 hq0
    have hmf := sameShapeAs_map_fst x r0 hshx
    have hndx : (x.map (fun p => p.1)).Nodup := by rw [hmf]; exact hnd
    have hgix : (x.map (fun p => p.1)).get? i = some kp := by
      rw [hmf, List.get?_map, hq0, Option.map_some', hq0k]
    have hgx : getField x kp = some px.2 := by
      rw [getField_at_nodup x kp i hndx hgix, hpx, Option.map_some']
    refine ⟨px.2, hgx, hsafex px (List.get?_mem hpx), by rw [hpxk2], ?_⟩
    rw [hzip, List.getD_eq_get?, List.get?_map, List.get?_map, hq0,
      Option.map_some', Option.map_some', Option.getD_some]
    show (match getField x q0.1 with
      | some v => applyAffinity (inferColType q0.2) (bindVal v)
      | none => SqlVal.null) = _
    rw [hq0k, hgx]
  have hcontains : r.all (fun p => (r0.map (fun p => p.1)).contains p.1) = true := by
    rw [List.all_eq_true]
    intro p hp
    exact List.elem_eq_true_of_mem (sameShapeAs_fst_mem r r0 hshr p hp)
  have hct : (r0.map (fun p => inferColType p.2)).getD i ColType.text =
      inferColType q0.2 := by
    rw [List.getD_eq_get?, List.get?_map, hq0, Option.map_some', Option.getD_some]
  obtain ⟨vr, hgvr, hsvr, hkindr, hcellr⟩ := hkey r hshr hsafer
  have hsq0 : safeScalar q0.2 = true := hsafe0 q0 (List.get?_mem hq0)
  have hbindint : ∀ q : ℚ, q.den = 1 →
      applyAffinity ColType.integer (bindVal (JsVal.num q)) = SqlVal.int q.num := by
    intro q h1
    show applyAffinity ColType.integer
      (if q.den = 1 then SqlVal.int q.num else SqlVal.real q) = _
    rw [if_pos h1]
    rfl
  have hbindreal : ∀ q : ℚ,
      applyAffinity ColType.real (bindVal (JsVal.num q)) = SqlVal.real q := by
    intro q
    by_cases h1 : q.den = 1
    · show applyAffinity ColType.real
        (if q.den = 1 then SqlVal.int q.num else SqlVal.real q) = _
      rw [if_pos h1]
      show SqlVal.real (mkRat q.num 1) = SqlVal.real q
      rw [← h1, Rat.mkRat_self]
    · show applyAffinity ColType.real
        (if q.den = 1 then SqlVal.int q.num else SqlVal.real q) = _
      rw [if_neg h1]
      rfl
  simp only [insertRow]
  rw [if_pos hcontains]
  simp only [hpki, hct, hcellr]
  cases hq02 : q0.2 with
  | bool b =>
    rw [hq02] at hsq0
    simp [safeScalar] at hsq0
  | null =>
    rw [hq02] at hsq0
    simp [safeScalar] at hsq0
  | arr xs =>
    rw [hq02] at hsq0
    simp [safeScalar] at hsq0
  | obj fs =>
    rw [hq02] at hsq0
    simp [safeScalar] at hsq0
  | num q0v =>
    rw [hq02] at hkindr
    by_cases hden : q0v.den = 1
    · have hTint : inferColType (JsVal.num q0v) = ColType.integer := by
        simp [inferColType, hden]
      have hii : isIntNum q0.2 = true := by
        rw [hq02]
        simp [isIntNum, hden]
      obtain ⟨hintr, hintd⟩ := hint hii
      rw [hgvr] at hintr
      have hintr2 : isIntNum vr = true := hintr
      cases vr with
      | num qr =>
        have hdenr : qr.den = 1 := by simpa [isIntNum] using hintr2
        have hany : (columnCells (done.map (fun d =>
            ((r0.map (fun p => p.1)).zip (r0.map (fun p => inferColType p.2))).map
              (fun ct =>
                match getField d ct.1 with
                | some v => applyAffinity ct.2 (bindVal v)
                | none => SqlVal.null))) i).any
            (fun c => sqlValEq c (SqlVal.int qr.num)) = false := by
          rw [Bool.eq_false_iff]
          intro hc
          rw [List.any_eq_true] at hc
          obtain ⟨c, hcmem, hceq⟩ := hc
          simp only [columnCells, List.map_map, List.mem_map, Function.comp] at hcmem
          obtain ⟨d, hd, hcd⟩ := hcmem
          obtain ⟨vd, hgvd, hsvd, hkindd, hcelld⟩ := hkey d (hshd d hd) (hsafed d hd)
          have hintd2 : isIntNum vd = true := by
            have h5 := hintd d hd
            rw [hgvd] at h5
            exact h5
          cases vd with
          | num qd =>
            have hdend : qd.den = 1 := by simpa [isIntNum] using hintd2
            have hc2 : c = SqlVal.int qd.num := by
              rw [← hcd, hcelld, hq02, hTint, hbindint qd hdend]
            rw [hc2] at hceq
            have hnum : qd.num = qr.num := by simpa [sqlValEq] using hceq
            have hqd : qd = qr := Rat.ext hnum (hdend.trans hdenr.symm)
            exact hdist d hd (by rw [hgvd, hgvr, hqd])
          | str s => simp [isIntNum] at hintd2
          | bool b => simp [isIntNum] at hintd2
          | null => simp [isIntNum] at hintd2
          | arr xs => simp [isIntNum] at hintd2
          | obj fs => simp [isIntNum] at hintd2
        simp only [hTint, hbindint qr hdenr, hany, eq_self_iff_true, ite_true,
          Bool.false_eq_true, ite_false]
      | str s => simp [isIntNum] at hintr2
      | bool b => simp [isIntNum] at hintr2
      | null => simp [isIntNum] at hintr2
      | arr xs => simp [isIntNum] at hintr2
      | obj fs => simp [isIntNum] at hintr2
    · have hTreal : inferColType (JsVal.num q0v) = ColType.real := by
        simp [inferColType, hden]
      cases vr with
      | num qr =>
        have hany : (columnCells (done.map (fun d =>
            ((r0.map (fun p => p.1)).zip (r0.map (fun p => inferColType p.2))).map
              (fun ct =>
                match getField d ct.1 with
                | some v => applyAffinity ct.2 (bindVal v)
                | none => SqlVal.null))) i).any
            (fun c => sqlValEq c (SqlVal.real qr)) = false := by
          rw [Bool.eq_false_iff]
          intro hc
          rw [List.any_eq_true] at hc
          obtain ⟨c, hcmem, hceq⟩ := hc
          simp only [columnCells, List.map_map, List.mem_map, Function.comp] at hcmem
          obtain ⟨d, hd, hcd⟩ := hcmem
          obtain ⟨vd, hgvd, hsvd, hkindd, hcelld⟩ := hkey d (hshd d hd) (hsafed d hd)
          rw [hq02] at hkindd
          cases vd with
          | num qd =>
            have hc2 : c = SqlVal.real qd := by
              rw [← hcd, hcelld, hq02, hTreal, hbindreal qd]
            rw [hc2] at hceq
            have hqd : qd = qr := by simpa [sqlValEq] using hceq
            exact hdist d hd (by rw [hgvd, hgvr, hqd])
          | str s => simp [isNumVal] at hkindd
          | bool b =>
            have h6 := hsvd
            simp [safeScalar] at h6
          | null =>
            have h6 := hsvd
            simp [safeScalar] at h6
          | arr xs =>
            have h6 := hsvd
            simp [safeScalar] at h6
          | obj fs =>
            have h6 := hsvd
            simp [safeScalar] at h6
        simp only [hTreal, hbindreal qr, hany, Bool.false_eq_true, ite_false]
        rw [if_neg (show ¬(ColType.real = ColType.integer) from by decide)]
      | str s => simp [isNumVal] at hkindr
      | bool b => simp [safeScalar] at hsvr
      | null => simp [safeScalar] at hsvr
      | arr xs => simp [safeScalar] at hsvr
      | obj fs => simp [safeScalar] at hsvr
  | str s0 =>
    rw [hq02] at hkindr
    cases vr with
    | str sr =>
      have hany : (columnCells (done.map (fun d =>
          ((r0.map (fun p => p.1)).zip (r0.map (fun p => inferColType p.2))).map
            (fun ct =>
              match getField d ct.1 with
              | some v => applyAffinity ct.2 (bindVal v)
              | none => SqlVal.null))) i).any
          (fun c => sqlValEq c (SqlVal.text sr)) = false := by
        rw [Bool.eq_false_iff]
        intro hc
        rw [List.any_eq_true] at hc
        obtain ⟨c, hcmem, hceq⟩ := hc
        simp only [columnCells, List.map_map, List.mem_map, Function.comp] at hcmem
        obtain ⟨d, hd, hcd⟩ := hcmem
        obtain ⟨vd, hgvd, hsvd, hkindd, hcelld⟩ := hkey d (hshd d hd) (hsafed d hd)
        rw [hq02] at hkindd
        cases vd with
        | str sd =>
          have hc2 : c = SqlVal.text sd := by
            rw [← hcd, hcelld, hq02]
            rfl
          rw [hc2] at hceq
          have hsd : sd = sr := by simpa [sqlValEq] using hceq
          exact hdist d hd (by rw [hgvd, hgvr, hsd])
        | num qd => simp [isNumVal] at hkindd
        | bool b => simp [safeScalar] at hsvd
        | null => simp [safeScalar] at hsvd
        | arr xs => simp [safeScalar] at hsvd
        | obj fs => simp [safeScalar] at hsvd
      have hcellt : applyAffinity (inferColType (JsVal.str s0))
          (bindVal (JsVal.str sr)) = SqlVal.text sr := rfl
      simp only [hcellt, hany, Bool.false_eq_true, ite_false]
      rw [if_neg (show ¬(inferColType (JsVal.str s0) = ColType.integer) from
        fun h => ColType.noConfusion h)]
    | num qr => simp [isNumVal] at hkindr
    | bool b => simp [safeScalar] at hsvr
    | null => simp [safeScalar] at hsvr
    | arr xs => simp [safeScalar] at hsvr
    | obj fs => simp [safeScalar] at hsvr

theorem insertRows_pk_ok (r0 : JsRec) (kp : String) (i : Nat) (q0 : String × JsVal)
    (hnd : (r0.map (fun p => p.1)).Nodup)
    (hq0 : r0.get? i = some q0) (hq0k : q0.1 = kp)
    (hpki : pkIndex (r0.map (fun p => p.1)) (some kp) = some i)
    (hsafe0 : ∀ p ∈ r0, safeScalar p.2 = true)
    (todo : List JsRec) :
    ∀ done : List JsRec,
      (∀ x ∈ done ++ todo, sameShapeAs x r0) →
      (∀ x ∈ done ++ todo, ∀ p ∈ x, safeScalar p.2 = true) →
      (isIntNum q0.2 = true →
        ∀ x ∈ done ++ todo, isIntNum ((getField x kp).getD JsVal.null) = true) →
      List.Pairwise (fun a b => a ≠ b)
        ((done ++ todo).map (fun x => getField x kp)) →
      insertRows (r0.map (fun p => p.1)) (r0.map (fun p => inferColType p.2))
        (some kp)
        (done.map (fun d =>
          ((r0.map (fun p => p.1)).zip (r0.map (fun p => inferColType p.2))).map
            (fun ct =>
              match getField d ct.1 with
              | some v => applyAffinity ct.2 (bindVal v)
              | none => SqlVal.null))) todo =
        Except.ok ((done ++ todo).map (fun d =>
          ((r0.map (fun p => p.1)).zip (r0.map (fun p => inferColType p.2))).map
            (fun ct =>
              match getField d ct.1 with
              | some v => applyAffinity ct.2 (bindVal v)
              | none => SqlVal.null))) := by
  induction todo with
  | nil =>
    intro done _ _ _ _
    simp [insertRows]
  | cons r rest ih =>
    intro done hsh hsafe hint hpair
    have hrmem : r ∈ done ++ r :: rest :=
      List.mem_append_right done (List.mem_cons_self r rest)
    have hdmem : ∀ d ∈ done, d ∈ done ++ r :: rest :=
      fun d hd => List.mem_append_left _ hd
    have hdist : ∀ d ∈ done, getField d kp ≠ getField r kp := by
      intro d hd
      have hpair2 := hpair
      rw [List.map_append] at hpair2
      have h3 := (List.pairwise_append.mp hpair2).2.2
      exact h3 (getField d kp) (List.mem_map_of_mem _ hd) (getField r kp)
        (by rw [List.map_cons]; exact List.mem_cons_self _ _)
    have hstep := insertRow_pk_ok r0 kp i q0 done r hnd hq0 hq0k hpki hsafe0
      (hsh r hrmem) (hsafe r hrmem)
      (fun d hd => hsh d (hdmem d hd))
      (fun d hd => hsafe d (hdmem d hd))
      (fun hi0 => ⟨hint hi0 r hrmem, fun d hd => hint hi0 d (hdmem d hd)⟩)
      hdist
    simp only [insertRows, hstep]
    have hl2 : (done ++ [r]) ++ rest = done ++ r :: rest := by
      rw [List.append_assoc]
      rfl
    have h1 : ∀ x ∈ (done ++ [r]) ++ rest, sameShapeAs x r0 := by
      rw [hl2]
      exact hsh
    have h2 : ∀ x ∈ (done ++ [r]) ++ rest, ∀ p ∈ x, safeScalar p.2 = true := by
      rw [hl2]
      exact hsafe
    have h3 : isIntNum q0.2 = true →
        ∀ x ∈ (done ++ [r]) ++ rest,
          isIntNum ((getField x kp).getD JsVal.null) = true := by
      rw [hl2]
      exact hint
    have h4 : List.Pairwise (fun a b => a ≠ b)
        (((done ++ [r]) ++ rest).map (fun x => getField x kp)) := by
      rw [hl2]
      exact hpair
    have hmain := ih (done ++ [r]) h1 h2 h3 h4
    rw [hl2] at hmain
    simp only [List.map_append, List.map_cons, List.map_nil] at hmain ⊢
    exact hmain

theorem listMap_eq_self_of {α : Type _} (l : List α) (f : α → α)
    (h : ∀ a ∈ l, f a = a) : l.map f = l := by
  induction l with
  | nil => rfl
  | cons a rest ih =>
    rw [List.map_cons, h a (List.mem_cons_self a rest),
      ih (fun x hx => h x (List.mem_cons_of_mem a hx))]

theorem eq_of_listMap_eq_self {α : Type _} (l : List α) (f : α → α)
    (h : l.map f = l) : ∀ a ∈ l, f a = a := by
  induction l with
  | nil => intro a ha; cases ha
  | cons a rest ih =>
    simp only [List.map_cons, List.cons.injEq] at h
    intro x hx
    rcases List.mem_cons.mp hx with h1 | h1
    · rw [h1, h.1]
    · exact ih h.2 x h1

/-- C2 (amended).  For every store whose records all share the same
(duplicate-free) field list in the same order with, per field, a
consistent kind of value — every value a number, or a string that the
revival heuristic keeps — and whose key-path column, when the registry
descriptor's key path is one of the fields, holds pairwise distinct
values that are moreover all integral numbers whenever the sampled
first record's key value is one, exporting the store to its relational
table and importing it back reproduces the original records exactly,
including value types.  (The counterexample shows the original claim's
boolean values break exactness: they return as the integers 0/1; the
heuristic likewise rewrites strings that parse as JSON objects, arrays
or null, mixed number/string columns are rewritten by column affinity,
a non-integral value in an INTEGER PRIMARY KEY column aborts the
export with SQLite's datatype mismatch, and duplicate key values abort
it with a UNIQUE-constraint failure.) -/
theorem relational_roundtrip_scalar_exact (cfg : Option StoreConfig)
    (storeName : String) (records : List JsRec)
    (hsafe : ∀ r ∈ records, ∀ p ∈ r, safeScalar p.2 = true)
    (hfields : ∀ r0, records.head? = some r0 →
      (r0.map (fun p => p.1)).Nodup ∧ ∀ r ∈ records, sameShapeAs r r0)
    (hpk : ∀ c r0, cfg = some c → records.head? = some r0 →
      c.keyPath ∈ r0.map (fun p => p.1) →
      List.Pairwise (fun a b => a ≠ b)
        (records.map (fun r => getField r c.keyPath)) ∧
      (isIntNum ((getField r0 c.keyPath).getD JsVal.null) = true →
        ∀ r ∈ records, isIntNum ((getField r c.keyPath).getD JsVal.null) = true)) :
    relationalRoundTrip cfg storeName records = Except.ok records := by
  cases records with
  | nil => rfl
  | cons r0 rest =>
    obtain ⟨hnd, hshape⟩ := hfields r0 rfl
    have hcont : ∀ r ∈ r0 :: rest,
        r.all (fun p => (r0.map (fun p => p.1)).contains p.1) = true := by
      intro r hr
      rw [List.all_eq_true]
      intro p hp
      exact List.elem_eq_true_of_mem (sameShapeAs_fst_mem r r0 (hshape r hr) p hp)
    have hrows : insertRows (r0.map (fun p => p.1))
        (r0.map (fun p => inferColType p.2))
        ((cfg.map (fun c => c.keyPath)).bind
          (fun kp => if (r0.map (fun p => p.1)).contains kp then some kp else none))
        [] (r0 :: rest) =
        Except.ok ((r0 :: rest).map (fun r =>
          ((r0.map (fun p => p.1)).zip (r0.map (fun p => inferColType p.2))).map
            (fun ct =>
              match getField r ct.1 with
              | some v => applyAffinity ct.2 (bindVal v)
              | none => SqlVal.null))) := by
      cases cfg with
      | none =>
        exact insertRows_nopk_ok (r0.map (fun p => p.1))
          (r0.map (fun p => inferColType p.2)) (r0 :: rest) [] hcont
      | some c =>
        cases hcon : (r0.map (fun p => p.1)).contains c.keyPath with
        | false =>
          have hpkn : ((some c).map (fun c => c.keyPath)).bind
              (fun kp => if (r0.map (fun p => p.1)).contains kp then some kp
                else none) = none := by
            show (if (r0.map (fun p => p.1)).contains c.keyPath = true
              then some c.keyPath else none) = none
            rw [hcon]
            exact if_neg Bool.false_ne_true
          rw [hpkn]
          exact insertRows_nopk_ok (r0.map (fun p => p.1))
            (r0.map (fun p => inferColType p.2)) (r0 :: rest) [] hcont
        | true =>
          have hmem : c.keyPath ∈ r0.map (fun p => p.1) :=
            List.mem_of_elem_eq_true hcon
          obtain ⟨i, hpki, hik⟩ :=
            pkIndex_spec (r0.map (fun p => p.1)) c.keyPath hmem
          have hq0' := hik
          rw [List.get?_map] at hq0'
          obtain ⟨q0, hq0, hq0k0⟩ := Option.map_eq_some'.mp hq0'
          have hq0k : q0.1 = c.keyPath := hq0k0
          have hgr0 : getField r0 c.keyPath = some q0.2 := by
            rw [getField_at_nodup r0 c.keyPath i hnd hik, hq0, Option.map_some']
          obtain ⟨hpair, hintc⟩ := hpk c r0 rfl rfl hmem
          have hint2 : isIntNum q0.2 = true →
              ∀ x ∈ ([] : List JsRec) ++ r0 :: rest,
                isIntNum ((getField x c.keyPath).getD JsVal.null) = true := by
            intro hi0 x hx
            exact hintc (by rw [hgr0]; exact hi0) x hx
          have hmain := insertRows_pk_ok r0 c.keyPath i q0 hnd hq0 hq0k hpki
            (hsafe r0 (List.mem_cons_self r0 rest)) (r0 :: rest) []
            (fun x hx => hshape x hx) (fun x hx => hsafe x hx) hint2
            (by exact hpair)
          have hpkv : ((some c).map (fun c => c.keyPath)).bind
              (fun kp => if (r0.map (fun p => p.1)).contains kp then some kp
                else none) = some c.keyPath := by
            show (if (r0.map (fun p => p.1)).contains c.keyPath = true
              then some c.keyPath else none) = some c.keyPath
            rw [hcon]
            rfl
          rw [hpkv]
          simp only [List.map_nil, List.nil_append] at hmain
          exact hmain
    simp only [relationalRoundTrip, exportStoreTable, hrows, importTableRecords]
    rw [List.map_map]
    congr 1
    apply listMap_eq_self_of
    intro r hr
    exact zipback_roundtrip r r0 hnd (hshape r hr) (hsafe r hr)
      (hsafe r0 (List.mem_cons_self r0 rest))

/-- C2 is false as the claim states it: a store whose single record's
only field holds the boolean `true` — an identical field set across
records, and only boolean values — round-trips to the integer 1, not
the boolean. -/
theorem relational_roundtrip_bool_counterexample :
    relationalRoundTrip none "s" [[("flag", JsVal.bool true)]] =
      Except.ok [[("flag", JsVal.num (mkRat 1 1))]] ∧
    ([[("flag", JsVal.num (mkRat 1 1))]] : List JsRec) ≠
      [[("flag", JsVal.bool true)]] := by
  refine ⟨rfl, ?_⟩
  simp

/-- The PRIMARY KEY constraints in action: a non-integral value in the
INTEGER PRIMARY KEY column `uid` makes the export fail with SQLite's
`datatype mismatch` instead of producing a table. -/
theorem exportStoreTable_realPk_mismatch :
    exportStoreTable (some { keyPath := "uid" }) "s"
      [[("uid", JsVal.num (mkRat 1 1))], [("uid", JsVal.num (mkRat 5 2))]] =
      Except.error "datatype mismatch" := rfl

/-- Witness for the amended C2: a two-record store keyed by the
distinct integers of the `uid` column, with a text field and a
non-integral numeric field, round-trips exactly. -/
theorem relational_roundtrip_scalar_exact_witness :
    relationalRoundTrip (some { keyPath := "uid" }) "s"
      [[("uid", JsVal.num (mkRat 1 1)), ("t", JsVal.str "he llo"),
        ("x", JsVal.num (mkRat 3 2))],
       [("uid", JsVal.num (mkRat 2 1)), ("t", JsVal.str "w"),
        ("x", JsVal.num (mkRat 7 1))]] =
      Except.ok
      [[("uid", JsVal.num (mkRat 1 1)), ("t", JsVal.str "he llo"),
        ("x", JsVal.num (mkRat 3 2))],
       [("uid", JsVal.num (mkRat 2 1)), ("t", JsVal.str "w"),
        ("x", JsVal.num (mkRat 7 1))]] := by
  apply relational_roundtrip_scalar_exact
  · intro r hr p hp
    simp only [List.mem_cons, List.not_mem_nil, or_false] at hr
    rcases hr with h | h <;> subst h <;>
      simp only [List.mem_cons, List.not_mem_nil, or_false] at hp <;>
      rcases hp with h' | h' | h' <;> subst h' <;> rfl
  · intro r0 h0
    simp only [List.head?_cons, Option.some.injEq] at h0
    subst h0
    constructor
    · decide
    · intro r hr
      simp only [List.mem_cons, List.not_mem_nil, or_false] at hr
      rcases hr with h | h <;> subst h <;>
        exact List.Forall₂.cons (by exact ⟨rfl, rfl⟩)
          (List.Forall₂.cons (by exact ⟨rfl, rfl⟩)
            (List.Forall₂.cons (by exact ⟨rfl, rfl⟩) List.Forall₂.nil))
  · intro c r0 hc h0 hmem
    injection hc with hc2
    subst hc2
    simp only [List.head?_cons, Option.some.injEq] at h0
    subst h0
    constructor
    · show List.Pairwise (fun a b => a ≠ b)
        [some (JsVal.num (mkRat 1 1)), some (JsVal.num (mkRat 2 1))]
      refine List.Pairwise.cons ?_ (List.Pairwise.cons
        (fun b hb => absurd hb (List.not_mem_nil b)) List.Pairwise.nil)
      intro b hb
      rw [List.mem_singleton] at hb
      subst hb
      intro hcontra
      injection hcontra with h1
      injection h1 with h2
      exact absurd h2 (by decide)
    · intro _ r hr
      simp only [List.mem_cons, List.not_mem_nil, or_false] at hr
      rcases hr with h | h <;> subst h <;> decide

/-! ### C3, C4, C9: lemmas about the import loop -/

theorem putOne_fail (ps : PhysStore) (item : JsRec)
    (hf : recFails ps.keyPath ps.autoIncrement item = true) :
    putOne ps item = Except.error DBErr.dataErr := by
  unfold putOne evalWriteKey
  unfold recFails at hf
  cases hg : getField item ps.keyPath with
  | none =>
    simp only [hg, Bool.not_eq_true'] at hf
    simp [hg, hf]
  | some v =>
    simp only [hg, Bool.not_eq_true'] at hf
    simp [hg, hf]

theorem putOne_ok (ps : PhysStore) (item : JsRec)
    (hf : recFails ps.keyPath ps.autoIncrement item = false) :
    ∃ ps' k, putOne ps item = Except.ok (ps', k) := by
  unfold putOne evalWriteKey
  unfold recFails at hf
  cases hg : getField item ps.keyPath with
  | none =>
    simp only [hg, Bool.not_eq_false'] at hf
    simp only [hg, hf, if_true]
    exact ⟨_, _, rfl⟩
  | some v =>
    simp only [hg, Bool.not_eq_false'] at hf
    simp only [hg, hf, if_true]
    exact ⟨_, _, rfl⟩

theorem putOne_shape (ps : PhysStore) (item : JsRec) (ps' : PhysStore) (k : JsVal)
    (h : putOne ps item = Except.ok (ps', k)) :
    ps'.keyPath = ps.keyPath ∧ ps'.autoIncrement = ps.autoIncrement := by
  unfold putOne evalWriteKey at h
  cases hg : getField item ps.keyPath with
  | none =>
    simp only [hg] at h
    by_cases hai : ps.autoIncrement = true
    · simp only [hai, if_true, Except.ok.injEq, Prod.mk.injEq] at h
      rw [← h.1]
      exact ⟨rfl, hai.symm⟩
    · simp only [hai, if_false] at h
      simp at h
  | some v =>
    simp only [hg] at h
    by_cases hv : validKey v = true
    · simp only [hv, if_true, Except.ok.injEq, Prod.mk.injEq] at h
      rw [← h.1]
      exact ⟨rfl, rfl⟩
    · simp only [hv, if_false] at h
      simp at h

/-- The per-record import loop, characterized: the store's shape is
preserved; with `skipErrors` the loop never throws and pushes one
message per failing record; without it, it throws `DataError` exactly
when some record fails; and whenever it does not throw, every record
of the list has been key-stripped in place. -/
theorem importRecords_spec (cfg : Option StoreConfig) (storeName : String)
    (skipErrors : Bool) (ps : PhysStore) (items : List JsRec)
    (psf : PhysStore) (n : Nat) (errs : List String) (data : List JsRec)
    (thrown : Option String)
    (h : importRecords cfg storeName skipErrors ps items =
      (psf, n, errs, data, thrown)) :
    psf.keyPath = ps.keyPath ∧ psf.autoIncrement = ps.autoIncrement ∧
    thrown = (if skipErrors then none
      else if items.any
        (fun i => recFails ps.keyPath ps.autoIncrement (stripKey cfg i))
      then some DBErr.dataErr.message else none) ∧
    (thrown = none → data = items.map (stripKey cfg)) ∧
    (skipErrors = true → errs =
      (items.filter
        (fun i => recFails ps.keyPath ps.autoIncrement (stripKey cfg i))).map
        (fun _ => "导入 " ++ storeName ++ " 中的数据失败: " ++ DBErr.dataErr.message)) := by
  induction items generalizing ps psf n errs data thrown with
  | nil =>
    simp only [importRecords, Prod.mk.injEq] at h
    obtain ⟨h1, _, h3, h4, h5⟩ := h
    subst h1; subst h3; subst h4; subst h5
    refine ⟨rfl, rfl, by simp, fun _ => rfl, fun _ => rfl⟩
  | cons item rest ih =>
    by_cases hf : recFails ps.keyPath ps.autoIncrement (stripKey cfg item) = true
    · have hput := putOne_fail ps (stripKey cfg item) hf
      cases skipErrors with
      | false =>
        simp only [importRecords, hput, ite_true, ite_false, Bool.false_eq_true,
          Prod.mk.injEq] at h
        obtain ⟨h1, _, h3, h4, h5⟩ := h
        subst h1; subst h3; subst h4; subst h5
        refine ⟨rfl, rfl, ?_, ?_, ?_⟩
        · simp [List.any_cons, hf]
        · intro hc; cases hc
        · intro hc; cases hc
      | true =>
        rcases hrec : importRecords cfg storeName true ps rest with
          ⟨psf2, n2, errs2, data2, thrown2⟩
        simp only [importRecords, hput, hrec, ite_true, ite_false,
          Prod.mk.injEq] at h
        obtain ⟨h1, _, h3, h4, h5⟩ := h
        subst h1; subst h3; subst h4; subst h5
        obtain ⟨ih1, ih2, ih3, ih4, ih5⟩ :=
          ih ps psf2 n2 errs2 data2 thrown2 hrec
        refine ⟨ih1, ih2, ?_, ?_, ?_⟩
        · simpa using ih3
        · intro ht
          rw [List.map_cons, ih4 ht]
        · intro _
          rw [List.filter_cons, if_pos hf, List.map_cons, ih5 rfl]
    · obtain ⟨ps', k, hput⟩ :=
        putOne_ok ps (stripKey cfg item) (Bool.not_eq_true _ ▸ hf)
      obtain ⟨hsk, hsa⟩ := putOne_shape ps (stripKey cfg item) ps' k hput
      rcases hrec : importRecords cfg storeName skipErrors ps' rest with
        ⟨psf2, n2, errs2, data2, thrown2⟩
      simp only [importRecords, hput, hrec, Prod.mk.injEq] at h
      obtain ⟨h1, _, h3, h4, h5⟩ := h
      subst h1; subst h3; subst h4; subst h5
      obtain ⟨ih1, ih2, ih3, ih4, ih5⟩ :=
        ih ps' psf2 n2 errs2 data2 thrown2 hrec
      have hfx : recFails ps.keyPath ps.autoIncrement (stripKey cfg item) = false :=
        Bool.not_eq_true _ ▸ hf
      refine ⟨ih1.trans hsk, ih2.trans hsa, ?_, ?_, ?_⟩
      · rw [ih3, hsk, hsa]
        rw [List.any_cons, hfx]
        simp
      · intro ht
        rw [List.map_cons, ih4 ht]
      · intro ht
        rw [List.filter_cons, if_neg (by simp [hfx]), ih5 ht, hsk, hsa]



theorem lookupStore_cons (k : String) (v : PhysStore)
    (rest : List (String × PhysStore)) (m : String) :
    lookupStore ((k, v) :: rest) m =
      if k = m then some v else lookupStore rest m := rfl

theorem lookupStore_updateStore (db : List (String × PhysStore))
    (nm : String) (ps : PhysStore) (m : String) :
    lookupStore (updateStore db nm ps) m =
      (lookupStore db m).map (fun old => if m = nm then ps else old) := by
  induction db with
  | nil => rfl
  | cons p rest ih =>
    obtain ⟨pn, pv⟩ := p
    show lookupStore ((if pn = nm then (pn, ps) else (pn, pv)) ::
        updateStore rest nm ps) m =
      (lookupStore ((pn, pv) :: rest) m).map
        (fun old => if m = nm then ps else old)
    rw [lookupStore_cons pn pv rest m]
    by_cases hn : pn = nm
    · rw [if_pos hn, lookupStore_cons pn ps (updateStore rest nm ps) m]
      by_cases hp : pn = m
      · have hm : m = nm := hp ▸ hn
        rw [if_pos hp, if_pos hp]
        simp [hm]
      · rw [if_neg hp, if_neg hp]
        exact ih
    · rw [if_neg hn, lookupStore_cons pn pv (updateStore rest nm ps) m]
      by_cases hp : pn = m
      · subst hp
        have hm : ¬(pn = nm) := hn
        rw [if_pos rfl, if_pos rfl]
        simp [hm]
      · rw [if_neg hp, if_neg hp]
        exact ih

theorem anyFailure_congr (registry : List (String × StoreConfig))
    (db db' : List (String × PhysStore))
    (hsh : ∀ m, shapeAt db m = shapeAt db' m)
    (entries : List (String × List JsRec)) :
    anyFailure registry db entries = anyFailure registry db' entries := by
  unfold anyFailure
  induction entries with
  | nil => rfl
  | cons e rest ih =>
    have he := hsh e.1
    unfold shapeAt at he
    cases h1 : lookupStore db e.1 with
    | none =>
      cases h2 : lookupStore db' e.1 with
      | none => simp only [List.any_cons, h1, h2, ih]
      | some ps' => rw [h1, h2] at he; cases he
    | some ps =>
      cases h2 : lookupStore db' e.1 with
      | none => rw [h1, h2] at he; cases he
      | some ps' =>
        rw [h1, h2] at he
        simp only [Option.map_some', Option.some.injEq, Prod.mk.injEq] at he
        simp only [List.any_cons, h1, h2, ih, he.1, he.2]

/-- One snapshot entry processed: store shapes are preserved; an
absent store is recorded as a warning, skipped, and never throws; the
entry throws `DataError` exactly when `skipErrors` is false and some
of its records fails; and when nothing is thrown the entry's records
have all been key-stripped in place (when the store exists). -/
theorem importStoreEntry_spec (registry : List (String × StoreConfig))
    (clearBeforeImport skipErrors : Bool) (s : ImportState)
    (entry : String × List JsRec) (s' : ImportState) (data' : List JsRec)
    (thrown : Option String)
    (h : importStoreEntry registry clearBeforeImport skipErrors s entry =
      (s', data', thrown)) :
    (∀ m, shapeAt s'.db m = shapeAt s.db m) ∧
    thrown = (if skipErrors then none
      else (match lookupStore s.db entry.1 with
        | none => none
        | some ps =>
          if entry.2.any (fun i =>
              recFails ps.keyPath ps.autoIncrement
                (stripKey (lookupCfg registry entry.1) i))
          then some DBErr.dataErr.message else none)) ∧
    (thrown = none → data' =
      (if (lookupStore s.db entry.1).isSome
       then entry.2.map (stripKey (lookupCfg registry entry.1))
       else entry.2)) ∧
    (∃ tail, s'.errors = s.errors ++ tail) ∧
    (lookupStore s.db entry.1 = none →
      s'.errors = s.errors ++ ["仓库 " ++ entry.1 ++ " 不存在，跳过导入"] ∧
      thrown = none) := by
  cases hl : lookupStore s.db entry.1 with
  | none =>
    simp only [importStoreEntry, hl, Prod.mk.injEq] at h
    obtain ⟨h1, h2, h3⟩ := h
    subst h1; subst h2; subst h3
    refine ⟨fun m => rfl, ?_, ?_, ⟨_, rfl⟩, fun _ => ⟨rfl, rfl⟩⟩
    · cases skipErrors <;> rfl
    · intro _
      simp
  | some ps =>
    have hclear : ∀ ps0 : PhysStore,
        (ps0 = if clearBeforeImport then { ps with contents := [] } else ps) →
        ps0.keyPath = ps.keyPath ∧ ps0.autoIncrement = ps.autoIncrement := by
      intro ps0 h0
      cases clearBeforeImport <;> simp at h0 <;> subst h0 <;> exact ⟨rfl, rfl⟩
    rcases hrec : importRecords (lookupCfg registry entry.1) entry.1 skipErrors
        (if clearBeforeImport then { ps with contents := [] } else ps) entry.2 with
      ⟨psf, n, errs, data2, thrown2⟩
    obtain ⟨hkp0, hai0⟩ := hclear _ rfl
    obtain ⟨hkp, hai, hthr, hdata, _⟩ :=
      importRecords_spec (lookupCfg registry entry.1) entry.1 skipErrors
        (if clearBeforeImport then { ps with contents := [] } else ps) entry.2
        psf n errs data2 thrown2 hrec
    have hkpf : psf.keyPath = ps.keyPath := hkp.trans hkp0
    have haif : psf.autoIncrement = ps.autoIncrement := hai.trans hai0
    have hshape : ∀ m, shapeAt (updateStore s.db entry.1 psf) m = shapeAt s.db m := by
      intro m
      unfold shapeAt
      rw [lookupStore_updateStore]
      by_cases hm : m = entry.1
      · subst hm
        rw [hl]
        simp [hkpf, haif]
      · cases lookupStore s.db m <;> simp [hm]
    have hthrf : thrown2 = (if skipErrors then none
        else if entry.2.any (fun i =>
            recFails ps.keyPath ps.autoIncrement
              (stripKey (lookupCfg registry entry.1) i))
          then some DBErr.dataErr.message else none) := by
      rw [hthr, hkp0, hai0]
    cases hth : thrown2 with
    | none =>
      simp only [importStoreEntry, hl, hrec, hth, Prod.mk.injEq] at h
      obtain ⟨h1, h2, h3⟩ := h
      subst h1; subst h2; subst h3
      refine ⟨hshape, ?_, ?_, ⟨_, rfl⟩, ?_⟩
      · exact hth.symm.trans hthrf
      · intro _
        simp only [Option.isSome_some, if_true]
        exact hdata hth
      · intro hc
        exact Option.noConfusion hc
    | some m0 =>
      simp only [importStoreEntry, hl, hrec, hth, Prod.mk.injEq] at h
      obtain ⟨h1, h2, h3⟩ := h
      subst h1; subst h2; subst h3
      refine ⟨hshape, ?_, ?_, ⟨_, by rw [List.append_assoc]⟩, ?_⟩
      · exact hth.symm.trans hthrf
      · intro hc
        cases hc
      · intro hc
        exact Option.noConfusion hc

theorem shapeAt_none_iff (db : List (String × PhysStore)) (m : String) :
    shapeAt db m = none ↔ lookupStore db m = none := by
  unfold shapeAt
  cases lookupStore db m <;> simp

theorem importLoop_skip_ok (registry : List (String × StoreConfig))
    (clearBeforeImport : Bool) :
    ∀ (entries : List (String × List JsRec)) (s : ImportState),
      ∃ r, (importLoop registry clearBeforeImport true s entries).1 =
        Except.ok r := by
  intro entries
  induction entries with
  | nil => intro s; exact ⟨_, rfl⟩
  | cons e rest ih =>
    intro s
    rcases hse : importStoreEntry registry clearBeforeImport true s e with
      ⟨s1, d1, t1⟩
    obtain ⟨_, hthr, _, _, _⟩ :=
      importStoreEntry_spec registry clearBeforeImport true s e s1 d1 t1 hse
    have ht1 : t1 = none := by simpa using hthr
    subst ht1
    obtain ⟨r, hr⟩ := ih s1
    rcases hloop : importLoop registry clearBeforeImport true s1 rest with
      ⟨res, dbf, rest2⟩
    rw [hloop] at hr
    refine ⟨r, ?_⟩
    simp only [importLoop, hse, hloop]
    exact hr

theorem importLoop_ok_result (registry : List (String × StoreConfig))
    (clearBeforeImport skipErrors : Bool) :
    ∀ (entries : List (String × List JsRec)) (s : ImportState)
      (r : ImportResult) (dbf : List (String × PhysStore))
      (snap2 : List (String × List JsRec)),
      importLoop registry clearBeforeImport skipErrors s entries =
        (Except.ok r, dbf, snap2) →
      r.success = r.errors.isEmpty ∧ ∀ x ∈ s.errors, x ∈ r.errors := by
  intro entries
  induction entries with
  | nil =>
    intro s r dbf snap2 h
    simp only [importLoop, Prod.mk.injEq, Except.ok.injEq] at h
    rw [← h.1]
    exact ⟨rfl, fun x hx => hx⟩
  | cons e rest ih =>
    intro s r dbf snap2 h
    rcases hse : importStoreEntry registry clearBeforeImport skipErrors s e with
      ⟨s1, d1, t1⟩
    obtain ⟨_, _, _, ⟨tail, htail⟩, _⟩ :=
      importStoreEntry_spec registry clearBeforeImport skipErrors s e s1 d1 t1 hse
    cases t1 with
    | some m =>
      simp only [importLoop, hse, Prod.mk.injEq] at h
      exact absurd h.1 (by simp)
    | none =>
      rcases hloop : importLoop registry clearBeforeImport skipErrors s1 rest with
        ⟨res, dbf1, rest2⟩
      simp only [importLoop, hse, hloop, Prod.mk.injEq] at h
      obtain ⟨hok, hrest⟩ := h
      obtain ⟨hsucc, hmono⟩ := ih s1 r dbf1 rest2 (by rw [hloop, hok])
      refine ⟨hsucc, fun x hx => hmono x ?_⟩
      rw [htail]
      exact List.mem_append_left tail hx

theorem importLoop_throw_spec (registry : List (String × StoreConfig))
    (clearBeforeImport : Bool) :
    ∀ (entries : List (String × List JsRec)) (s : ImportState),
      (anyFailure registry s.db entries = true →
        (importLoop registry clearBeforeImport false s entries).1 =
          Except.error DBErr.dataErr.message) ∧
      (anyFailure registry s.db entries = false →
        ∃ r, (importLoop registry clearBeforeImport false s entries).1 =
          Except.ok r) := by
  intro entries
  induction entries with
  | nil =>
    intro s
    refine ⟨fun hc => ?_, fun _ => ⟨_, rfl⟩⟩
    simp [anyFailure] at hc
  | cons e rest ih =>
    intro s
    rcases hse : importStoreEntry registry clearBeforeImport false s e with
      ⟨s1, d1, t1⟩
    obtain ⟨hsh, hthr, _, _, _⟩ :=
      importStoreEntry_spec registry clearBeforeImport false s e s1 d1 t1 hse
    simp only [Bool.false_eq_true, if_false] at hthr
    have hcong : anyFailure registry s1.db rest = anyFailure registry s.db rest :=
      anyFailure_congr registry s1.db s.db hsh rest
    cases hl : lookupStore s.db e.1 with
    | none =>
      rw [hl] at hthr
      subst hthr
      rcases hloop : importLoop registry clearBeforeImport false s1 rest with
        ⟨res, dbf1, rest2⟩
      have hany : anyFailure registry s.db (e :: rest) =
          anyFailure registry s.db rest := by
        unfold anyFailure
        simp [List.any_cons, hl]
      constructor
      · intro htrue
        rw [hany] at htrue
        have := (ih s1).1 (by rw [hcong]; exact htrue)
        rw [hloop] at this
        simp only [importLoop, hse, hloop]
        exact this
      · intro hfalse
        rw [hany] at hfalse
        obtain ⟨r, hr⟩ := (ih s1).2 (by rw [hcong]; exact hfalse)
        rw [hloop] at hr
        refine ⟨r, ?_⟩
        simp only [importLoop, hse, hloop]
        exact hr
    | some ps =>
      rw [hl] at hthr
      have hthr2 : t1 = (if (e.2.any fun i => recFails ps.keyPath ps.autoIncrement
          (stripKey (lookupCfg registry e.1) i)) = true
        then some DBErr.dataErr.message else none) := hthr
      have hany : anyFailure registry s.db (e :: rest) =
          ((e.2.any fun i => recFails ps.keyPath ps.autoIncrement
            (stripKey (lookupCfg registry e.1) i)) ||
            anyFailure registry s.db rest) := by
        unfold anyFailure
        simp [List.any_cons, hl]
      by_cases hfail : (e.2.any fun i => recFails ps.keyPath ps.autoIncrement
          (stripKey (lookupCfg registry e.1) i)) = true
      · rw [if_pos hfail] at hthr2
        subst hthr2
        constructor
        · intro _
          simp only [importLoop, hse]
        · intro hfalse
          rw [hany] at hfalse
          simp [hfail] at hfalse
      · rw [if_neg hfail] at hthr2
        subst hthr2
        rcases hloop : importLoop registry clearBeforeImport false s1 rest with
          ⟨res, dbf1, rest2⟩
        have hfail' : (e.2.any fun i => recFails ps.keyPath ps.autoIncrement
            (stripKey (lookupCfg registry e.1) i)) = false :=
          Bool.not_eq_true _ ▸ hfail
        constructor
        · intro htrue
          rw [hany] at htrue
          simp only [hfail', Bool.false_or] at htrue
          have := (ih s1).1 (by rw [hcong]; exact htrue)
          rw [hloop] at this
          simp only [importLoop, hse, hloop]
          exact this
        · intro hfalse
          rw [hany] at hfalse
          simp only [hfail', Bool.false_or] at hfalse
          obtain ⟨r, hr⟩ := (ih s1).2 (by rw [hcong]; exact hfalse)
          rw [hloop] at hr
          refine ⟨r, ?_⟩
          simp only [importLoop, hse, hloop]
          exact hr

theorem importLoop_unknown_store (registry : List (String × StoreConfig))
    (clearBeforeImport skipErrors : Bool) (nm : String) :
    ∀ (entries : List (String × List JsRec)) (s : ImportState)
      (g : List JsRec), (nm, g) ∈ entries →
      lookupStore s.db nm = none →
      ∀ r dbf snap2,
        importLoop registry clearBeforeImport skipErrors s entries =
          (Except.ok r, dbf, snap2) →
        ("仓库 " ++ nm ++ " 不存在，跳过导入") ∈ r.errors := by
  intro entries
  induction entries with
  | nil =>
    intro s g hmem
    cases hmem
  | cons e rest ih =>
    intro s g hmem hnone r dbf snap2 h
    rcases hse : importStoreEntry registry clearBeforeImport skipErrors s e with
      ⟨s1, d1, t1⟩
    obtain ⟨hsh, _, _, ⟨tail, htail⟩, hghost⟩ :=
      importStoreEntry_spec registry clearBeforeImport skipErrors s e s1 d1 t1 hse
    rcases List.mem_cons.mp hmem with he | hr
    · have he1 : e.1 = nm := by rw [← he]
      obtain ⟨herr, ht1⟩ := hghost (he1 ▸ hnone)
      subst ht1
      rcases hloop : importLoop registry clearBeforeImport skipErrors s1 rest with
        ⟨res, dbf1, rest2⟩
      simp only [importLoop, hse, hloop, Prod.mk.injEq] at h
      exact (importLoop_ok_result registry clearBeforeImport skipErrors rest s1 r
          dbf1 rest2 (by rw [hloop, h.1])).2
        ("仓库 " ++ nm ++ " 不存在，跳过导入")
        (by rw [herr, he1]
            exact List.mem_append_right _ (List.mem_singleton.mpr rfl))
    · cases t1 with
      | some m =>
        simp only [importLoop, hse, Prod.mk.injEq] at h
        exact absurd h.1 (by simp)
      | none =>
        rcases hloop : importLoop registry clearBeforeImport skipErrors s1 rest with
          ⟨res, dbf1, rest2⟩
        simp only [importLoop, hse, hloop, Prod.mk.injEq] at h
        have hnone1 : lookupStore s1.db nm = none := by
          rw [← shapeAt_none_iff]
          rw [hsh nm]
          rw [shapeAt_none_iff]
          exact hnone
        exact ih s1 g hr hnone1 r dbf1 rest2 (by rw [hloop, h.1])

theorem importLoop_mutation (registry : List (String × StoreConfig))
    (clearBeforeImport : Bool) :
    ∀ (entries : List (String × List JsRec)) (s : ImportState),
      (importLoop registry clearBeforeImport true s entries).2.2 =
        entries.map (fun e =>
          if (lookupStore s.db e.1).isSome
          then (e.1, e.2.map (stripKey (lookupCfg registry e.1))) else e) := by
  intro entries
  induction entries with
  | nil => intro s; rfl
  | cons e rest ih =>
    intro s
    rcases hse : importStoreEntry registry clearBeforeImport true s e with
      ⟨s1, d1, t1⟩
    obtain ⟨hsh, hthr, hdata, _, _⟩ :=
      importStoreEntry_spec registry clearBeforeImport true s e s1 d1 t1 hse
    have ht1 : t1 = none := by simpa using hthr
    subst ht1
    rcases hloop : importLoop registry clearBeforeImport true s1 rest with
      ⟨res, dbf1, rest2⟩
    simp only [importLoop, hse, hloop]
    have hd1 := hdata rfl
    have hrest : rest2 = rest.map (fun e =>
        if (lookupStore s.db e.1).isSome
        then (e.1, e.2.map (stripKey (lookupCfg registry e.1))) else e) := by
      have h0 := ih s1
      rw [hloop] at h0
      have h1 : rest2 = rest.map (fun e =>
          if (lookupStore s1.db e.1).isSome
          then (e.1, e.2.map (stripKey (lookupCfg registry e.1))) else e) := h0
      rw [h1]
      apply List.map_congr_left
      intro a _
      have hiff : (lookupStore s1.db a.1).isSome = (lookupStore s.db a.1).isSome := by
        have hs := hsh a.1
        unfold shapeAt at hs
        cases h1 : lookupStore s1.db a.1 <;> cases h2 : lookupStore s.db a.1 <;>
          rw [h1, h2] at hs <;> simp at hs ⊢
      rw [hiff]
    rw [List.map_cons, hrest]
    by_cases hl : (lookupStore s.db e.1).isSome = true
    · rw [if_pos hl] at hd1 ⊢
      rw [hd1]
    · rw [if_neg hl] at hd1 ⊢
      rw [hd1]

/-- C3.  A store name in the snapshot that is absent from the live
database is recorded as a warning and skipped without aborting the
import: with `skipErrors` (the default) the call returns normally, and
whenever it returns a result, a snapshot containing the unknown store
name `ghost` yields `success = false` together with an `errors` entry
mentioning `ghost`. -/
theorem importData_unknown_store_warning (registry : List (String × StoreConfig))
    (db : List (String × PhysStore)) (snap : Snapshot)
    (clearBeforeImport skipErrors : Bool) (g : List JsRec)
    (hg : lookupStore db "ghost" = none)
    (hmem : ("ghost", g) ∈ snap.stores) :
    (skipErrors = true →
      ∃ r, (importData registry db snap clearBeforeImport skipErrors).1 =
        Except.ok r) ∧
    (∀ r dbf snap2,
      importData registry db snap clearBeforeImport skipErrors =
        (Except.ok r, dbf, snap2) →
      ("仓库 ghost 不存在，跳过导入") ∈ r.errors ∧ r.success = false) ∧
    (∃ pre post, "仓库 ghost 不存在，跳过导入" = pre ++ "ghost" ++ post) := by
  refine ⟨?_, ?_, ⟨"仓库 ", " 不存在，跳过导入", rfl⟩⟩
  · intro hsk
    subst hsk
    exact importLoop_skip_ok registry clearBeforeImport snap.stores _
  · intro r dbf snap2 h
    have hm : ("仓库 " ++ "ghost" ++ " 不存在，跳过导入") ∈ r.errors :=
      importLoop_unknown_store registry clearBeforeImport skipErrors "ghost"
        snap.stores { db := db, imported := [], errors := [] } g hmem hg
        r dbf snap2 h
    have hm2 : ("仓库 ghost 不存在，跳过导入") ∈ r.errors := hm
    refine ⟨hm2, ?_⟩
    obtain ⟨hsucc, _⟩ := importLoop_ok_result registry clearBeforeImport
      skipErrors snap.stores { db := db, imported := [], errors := [] }
      r dbf snap2 h
    rw [hsucc]
    cases hE : r.errors.isEmpty with
    | false => rfl
    | true =>
      rw [List.isEmpty_iff] at hE
      rw [hE] at hm2
      cases hm2

/-- Witness for C3: importing a snapshot whose only store is `ghost`
into the bootstrap database returns normally with `success = false`
and the `ghost` warning among the errors. -/
theorem importData_unknown_store_warning_witness :
    ∃ r dbf snap2,
      importData [("records", recordsStoreConfig)]
        [("records", freshStore recordsStoreConfig)]
        { dbName := "mimiDate", version := 1, exportDate := "",
          stores := [("ghost", [[("a", JsVal.num (mkRat 1 1))]])] } false true =
        (Except.ok r, dbf, snap2) ∧
      ("仓库 ghost 不存在，跳过导入") ∈ r.errors ∧ r.success = false := by
  have hthm := importData_unknown_store_warning
    [("records", recordsStoreConfig)] [("records", freshStore recordsStoreConfig)]
    { dbName := "mimiDate", version := 1, exportDate := "",
      stores := [("ghost", [[("a", JsVal.num (mkRat 1 1))]])] }
    false true [[("a", JsVal.num (mkRat 1 1))]]
    (by simp [lookupStore]) (List.mem_singleton.mpr rfl)
  rcases hsplit : importData [("records", recordsStoreConfig)]
      [("records", freshStore recordsStoreConfig)]
      { dbName := "mimiDate", version := 1, exportDate := "",
        stores := [("ghost", [[("a", JsVal.num (mkRat 1 1))]])] } false true with
    ⟨res, dbf, snap2⟩
  obtain ⟨r, hr⟩ := hthm.1 rfl
  rw [hsplit] at hr
  have hres : res = Except.ok r := hr
  have heq : importData [("records", recordsStoreConfig)]
      [("records", freshStore recordsStoreConfig)]
      { dbName := "mimiDate", version := 1, exportDate := "",
        stores := [("ghost", [[("a", JsVal.num (mkRat 1 1))]])] } false true =
      (Except.ok r, dbf, snap2) := by
    rw [hsplit, hres]
  obtain ⟨h1, h2⟩ := hthm.2.1 r dbf snap2 heq
  exact ⟨r, dbf, snap2, by rw [hres], h1, h2⟩

/-- C4.  Error policy of `importSnapshot`: with `skipErrors` the call
always returns a result (per-record failures are recorded — one
message per failing record — and the loop continues); with
`skipErrors` false the call propagates an error exactly when some
record's insertion fails, the propagated error being the engine's
`DataError`; and any returned result has `success = false` whenever
its `errors` list is non-empty. -/
theorem importData_error_policy (registry : List (String × StoreConfig))
    (db : List (String × PhysStore)) (snap : Snapshot)
    (clearBeforeImport skipErrors : Bool) :
    (skipErrors = true →
      ∃ r, (importData registry db snap clearBeforeImport skipErrors).1 =
        Except.ok r) ∧
    (∀ r dbf snap2,
      importData registry db snap clearBeforeImport skipErrors =
        (Except.ok r, dbf, snap2) →
      r.errors ≠ [] → r.success = false) ∧
    (skipErrors = false →
      ((importData registry db snap clearBeforeImport skipErrors).1 =
          Except.error DBErr.dataErr.message ↔
        anyFailure registry db snap.stores = true)) ∧
    (∀ cfg storeName ps items psf n errs data2 thrown,
      importRecords cfg storeName true ps items =
        (psf, n, errs, data2, thrown) →
      errs = (items.filter (fun i =>
          recFails ps.keyPath ps.autoIncrement (stripKey cfg i))).map
        (fun _ => "导入 " ++ storeName ++ " 中的数据失败: " ++
          DBErr.dataErr.message)) := by
  refine ⟨?_, ?_, ?_, ?_⟩
  · intro hsk
    subst hsk
    exact importLoop_skip_ok registry clearBeforeImport snap.stores _
  · intro r dbf snap2 h hne
    obtain ⟨hsucc, _⟩ := importLoop_ok_result registry clearBeforeImport
      skipErrors snap.stores { db := db, imported := [], errors := [] }
      r dbf snap2 h
    rw [hsucc]
    cases hE : r.errors.isEmpty with
    | false => rfl
    | true =>
      rw [List.isEmpty_iff] at hE
      exact absurd hE hne
  · intro hsk
    subst hsk
    obtain ⟨hthrow, hok⟩ := importLoop_throw_spec registry clearBeforeImport
      snap.stores { db := db, imported := [], errors := [] }
    constructor
    · intro herr
      cases hany : anyFailure registry db snap.stores with
      | true => rfl
      | false =>
        obtain ⟨r, hr⟩ := hok hany
        have herr2 : (importLoop registry clearBeforeImport false
            { db := db, imported := [], errors := [] } snap.stores).1 =
            Except.error DBErr.dataErr.message := herr
        rw [herr2] at hr
        cases hr
    · exact hthrow
  · intro cfg storeName ps items psf n errs data2 thrown h
    exact (importRecords_spec cfg storeName true ps items
      psf n errs data2 thrown h).2.2.2.2 rfl

/-- Witness for C4: importing one record without a primary key into
the non-auto-increment store `plain` records one `DataError` message
and returns `success = false` when `skipErrors` is set, and propagates
`DataError` when it is not. -/
theorem importData_error_policy_witness :
    (∃ r, (importData [("plain", { keyPath := "id" })]
        [("plain", freshStore { keyPath := "id" })]
        { dbName := "d", version := 1, exportDate := "",
          stores := [("plain", [[("name", JsVal.str "x")]])] } false true).1 =
      Except.ok r) ∧
    anyFailure [("plain", { keyPath := "id" })]
      [("plain", freshStore { keyPath := "id" })]
      [("plain", [[("name", JsVal.str "x")]])] = true ∧
    (importData [("plain", { keyPath := "id" })]
        [("plain", freshStore { keyPath := "id" })]
        { dbName := "d", version := 1, exportDate := "",
          stores := [("plain", [[("name", JsVal.str "x")]])] } false false).1 =
      Except.error DBErr.dataErr.message := by
  refine ⟨(importData_error_policy [("plain", { keyPath := "id" })]
      [("plain", freshStore { keyPath := "id" })]
      { dbName := "d", version := 1, exportDate := "",
        stores := [("plain", [[("name", JsVal.str "x")]])] } false true).1 rfl,
    ?_, ?_⟩
  · rfl
  · exact (importData_error_policy [("plain", { keyPath := "id" })]
      [("plain", freshStore { keyPath := "id" })]
      { dbName := "d", version := 1, exportDate := "",
        stores := [("plain", [[("name", JsVal.str "x")]])] } false false).2.2.1
      rfl |>.mpr rfl

/-- C9.  `importSnapshot` mutates the caller's snapshot in place: with
`skipErrors` (the default), after the call every record of every
auto-increment store present in the database has lost its null-valued
primary-key property — the snapshot's stores equal the original stores
with the key-stripping map applied wherever the store exists — and as
soon as one such record actually carried the property with a null
value, the mutated snapshot is no longer field-for-field equal to the
snapshot the caller supplied. -/
theorem importData_mutates_snapshot (registry : List (String × StoreConfig))
    (db : List (String × PhysStore)) (snap : Snapshot)
    (clearBeforeImport : Bool) (sname : String) (cfg : StoreConfig)
    (items : List JsRec)
    (hcfg : lookupCfg registry sname = some cfg)
    (hai : cfg.autoIncrement = true) (hkp : cfg.keyPath ≠ "")
    (hdb : (lookupStore db sname).isSome = true)
    (hmem : (sname, items) ∈ snap.stores)
    (hnull : ∃ item ∈ items, (cfg.keyPath, JsVal.null) ∈ item) :
    (importData registry db snap clearBeforeImport true).2.2 =
      snap.stores.map (fun e =>
        if (lookupStore db e.1).isSome
        then (e.1, e.2.map (stripKey (lookupCfg registry e.1))) else e) ∧
    (importData registry db snap clearBeforeImport true).2.2 ≠ snap.stores := by
  have hchar := importLoop_mutation registry clearBeforeImport snap.stores
    { db := db, imported := [], errors := [] }
  have hchar2 : (importData registry db snap clearBeforeImport true).2.2 =
      snap.stores.map (fun e =>
        if (lookupStore db e.1).isSome
        then (e.1, e.2.map (stripKey (lookupCfg registry e.1))) else e) := hchar
  refine ⟨hchar2, ?_⟩
  rw [hchar2]
  intro hEq
  have hf := eq_of_listMap_eq_self snap.stores _ hEq (sname, items) hmem
  simp only [hdb, if_true] at hf
  rw [hcfg] at hf
  have hmap : items.map (stripKey (some cfg)) = items := by
    have := congrArg Prod.snd hf
    simpa using this
  obtain ⟨item, hitem, hpair⟩ := hnull
  have hstrip := eq_of_listMap_eq_self items _ hmap item hitem
  unfold stripKey at hstrip
  have hstrip2 : (if cfg.autoIncrement = true ∧ cfg.keyPath ≠ "" then
      item.filter (fun p => !(p.1 == cfg.keyPath && isNullVal p.2))
    else item) = item := hstrip
  rw [if_pos ⟨hai, hkp⟩] at hstrip2
  have hall := List.filter_eq_self.mp hstrip2 (cfg.keyPath, JsVal.null) hpair
  simp [isNullVal] at hall

/-- Witness for C9: importing one record `{uid: null, title: "a"}`
into the auto-increment `records` store leaves the caller's snapshot
holding `{title: "a"}` — no longer equal to what was supplied. -/
theorem importData_mutates_snapshot_witness :
    (importData [("records", recordsStoreConfig)]
        [("records", freshStore recordsStoreConfig)]
        { dbName := "mimiDate", version := 1, exportDate := "",
          stores := [("records",
            [[("uid", JsVal.null), ("title", JsVal.str "a")]])] }
        false true).2.2 ≠
      [("records", [[("uid", JsVal.null), ("title", JsVal.str "a")]])] :=
  (importData_mutates_snapshot [("records", recordsStoreConfig)]
    [("records", freshStore recordsStoreConfig)]
    { dbName := "mimiDate", version := 1, exportDate := "",
      stores := [("records",
        [[("uid", JsVal.null), ("title", JsVal.str "a")]])] }
    false "records" recordsStoreConfig
    [[("uid", JsVal.null), ("title", JsVal.str "a")]]
    rfl rfl (by decide) rfl (List.mem_singleton.mpr rfl)
    ⟨[("uid", JsVal.null), ("title", JsVal.str "a")],
      List.mem_singleton.mpr rfl, List.mem_cons_self _ _⟩).2
